import Mathlib

/-!
Verification development for the gorun compilation-cache manager
(`gorun.go`).  The Go functions are shallowly embedded as executable Lean
functions: strings become `List Char`, filesystem metadata becomes explicit
records, syscall outcomes become oracle fields of an environment record,
and the functions' effects are recorded in explicit traces.  Each section
cites the Go function it translates.
-/

namespace Gorun

/-- Character-list strings, matching Go byte/string values on ASCII data. -/
abbrev Str := List Char

/-! ### Go string primitives

`goReplace` is `strings.Replace(s, old, new, n)`: replace up to `n`
non-overlapping occurrences of `old` scanning left to right; a negative `n`
means replace all.  Implemented with a fuel argument equal to the length of
`s` (each step consumes at least one character of `s` when `old` is
nonempty, so the fuel is sufficient) to keep the definition structural and
kernel-computable. -/

def goReplaceFuel (old new : Str) : Nat → Str → Int → Str
  | 0, s, _ => s
  | _ + 1, [], _ => []
  | fuel + 1, c :: rest, n =>
    if n = 0 then c :: rest
    else if old ≠ [] ∧ old.isPrefixOf (c :: rest) = true then
      new ++ goReplaceFuel old new fuel ((c :: rest).drop old.length) (n - 1)
    else
      c :: goReplaceFuel old new fuel rest n

/-- Go `strings.Replace(s, old, new, n)` (also covering `bytes.ReplaceAll`
via `n = -1`). -/
def goReplace (s old new : Str) (n : Int) : Str :=
  goReplaceFuel old new s.length s n

/-- Go `strings.Split(s, sep)` for a single-character separator: the list of
maximal separator-free segments (empty segments included). -/
def goSplit : Str → Char → List Str
  | [], _ => [[]]
  | a :: rest, c =>
    match goSplit rest c with
    | [] => if a = c then [[], []] else [[a]]
    | h :: t => if a = c then [] :: h :: t else (a :: h) :: t

/-- Go `bytes.Index(s, pat)` as an option: the first index at which `pat`
occurs in `s`, `none` when absent (Go returns `-1`). -/
def goIndexOf : Str → Str → Option Nat
  | s, pat =>
    if pat.isPrefixOf s = true then some 0
    else
      match s with
      | [] => none
      | _ :: rest => (goIndexOf rest pat).map fun k => k + 1

/-! ### Cache-slot derivation (`RunFilePaths`, gorun.go:262-286)

`RunFilePaths` resolves the source path (`filepath.Abs` +
`filepath.EvalSymlinks`, modelled as: the input here is already the
canonical resolved absolute path) and derives

  * the flat directory name: double every `_`, replace the first `/` with
    `ROOT_`, then every remaining `/` with `_`;
  * `runCmdDir = runBaseDir / <flat name> /` (`filepath.Join` modelled as
    concatenation with a single separator: `runBaseDir` is clean and the
    flat name contains no separator);
  * `runFile = runCmdDir ++ <base file name> ++ ".gorun"`. -/

def sepChar : Char := '/'

/-- The last path element (`pathElements[len(pathElements)-1]`). -/
def baseFileNameOf (sourcefile : Str) : Str :=
  (goSplit sourcefile sepChar).getLastD []

/-- The flat, separator-free directory name derived from the resolved
source path. -/
def runFileEnc (sourcefile : Str) : Str :=
  let r1 := goReplace sourcefile "_".data "__".data (-1)
  let r2 := goReplace r1 "/".data "ROOT_".data 1
  goReplace r2 "/".data "_".data (-1)

/-- `runCmdDir`: the per-source subdirectory of the cache root. -/
def runCmdDirOf (runBaseDir sourcefile : Str) : Str :=
  runBaseDir ++ "/".data ++ runFileEnc sourcefile ++ "/".data

/-- `runFile`: the full path of the cached binary for `sourcefile`. -/
def runFileOf (runBaseDir sourcefile : Str) : Str :=
  runCmdDirOf runBaseDir sourcefile ++ baseFileNameOf sourcefile ++ ".gorun".data

/-! ### Command-line dispatch (`main`, gorun.go:39-58)

`main` takes `os.Args[1:]`; an empty list is replaced by `["."]`; a help
flag in position zero prints usage and exits; otherwise `Run(args)` is
called. -/

inductive MainAction where
  | usage
  | runWith (args : List Str)
deriving DecidableEq, Repr

def mainDispatch (argv : List Str) : MainAction :=
  let args := if argv = [] then [".".data] else argv
  match args with
  | [] => .usage
  | a0 :: _ =>
    if a0 = "-h".data ∨ a0 = "help".data ∨ a0 = "-help".data ∨ a0 = "--help".data then
      .usage
    else
      .runWith args

/-! ### File metadata

`os.FileInfo` as used by gorun: the node type (the code tests
`Mode() & (ModeDir|ModeSymlink|ModeDevice|ModeNamedPipe|ModeSocket)`),
the permission bits, and the modification/access timestamps (integers,
nanoseconds, matching `time.Time` comparisons `Before`/`After`). -/

inductive NodeKind where
  | regular
  | dir
  | symlink
  | device
  | namedPipe
  | socket
deriving DecidableEq, Repr

/-- `Mode() & (ModeDir|ModeSymlink|ModeDevice|ModeNamedPipe|ModeSocket) != 0`. -/
def irregular : NodeKind → Bool
  | .regular => false
  | _ => true

structure FileInfo where
  kind : NodeKind
  perm : Nat
  mtime : Int
  atime : Int
deriving DecidableEq, Repr

/-! ### Expiry sweeper (`CleanDir`, gorun.go:336-376)

`CleanDir(runBaseDir, now)` works on the immediate children of the cache
root (the listing returned by `Readdir`); the `last-cleaned` marker is
itself one of those children.  Fallible syscalls are driven by boolean
oracles; their Go error values are abstracted to fixed message strings.
`os.Create` on an existing file truncates it (updating its mtime, keeping
its atime); creating a fresh file sets both times to now.  Children whose
removal the scan decides on are removed wholesale (`os.RemoveAll`, whose
error is ignored by the code). -/

/-- `time.Hour * 24 * 7` in nanoseconds. -/
def CleanFileDelay : Int := 604800000000000

def markerName : Str := "last-cleaned".data

/-- The immediate children of the cache root, by name. -/
structure DirState where
  children : List (Str × FileInfo)
deriving DecidableEq, Repr

def lookupChild : List (Str × FileInfo) → Str → Option FileInfo
  | [], _ => none
  | (n, fi) :: rest, name => if n = name then some fi else lookupChild rest name

/-- Replace the entry for `name` (or append it) with `fi`. -/
def setChild : List (Str × FileInfo) → Str → FileInfo → List (Str × FileInfo)
  | [], name, fi => [(name, fi)]
  | (n, g) :: rest, name, fi =>
    if n = name then (n, fi) :: rest else (n, g) :: setChild rest name fi

/-- Effect of `os.Create(cleanedfile)` followed by `f.Write(...)`: an
existing marker keeps its atime and gets mtime `now`; a fresh marker gets
both times `now` (mode 0666 before umask; the marker's permission bits are
never consulted). -/
def writeMarker (d : DirState) (now : Int) : DirState :=
  match lookupChild d.children markerName with
  | some fi => ⟨setChild d.children markerName ⟨fi.kind, fi.perm, now, fi.atime⟩⟩
  | none => ⟨setChild d.children markerName ⟨.regular, 0o666, now, now⟩⟩

/-- Failure oracles for the sweeper's fallible syscalls. -/
structure CleanDirEnv where
  createFails : Bool
  writeFails : Bool
  openFails : Bool
  readdirFails : Bool
deriving DecidableEq, Repr

/-- `CleanDir(runBaseDir, now)`.  Returns (error?, resulting children,
whether the expiry scan ran).  Mirrors gorun.go line by line: stat the
marker and return immediately when its mtime is strictly after
`now - CleanFileDelay`; otherwise create/write the marker (errors
propagate), open and list the root (errors propagate), and remove every
listed child whose atime is strictly before `now - CleanFileDelay`. -/
def CleanDir (env : CleanDirEnv) (d : DirState) (now : Int) :
    Option String × DirState × Bool :=
  let cleanLine := now - CleanFileDelay
  let recentlyCleaned :=
    match lookupChild d.children markerName with
    | some info => decide (cleanLine < info.mtime)
    | none => false
  if recentlyCleaned then (none, d, false)
  else if env.createFails then (some "create last-cleaned failed", d, false)
  else
    let d1 := writeMarker d now
    if env.writeFails then (some "write last-cleaned failed", d1, false)
    else if env.openFails then (some "open runBaseDir failed", d1, false)
    else if env.readdirFails then (some "readdir runBaseDir failed", d1, false)
    else
      (none, ⟨d1.children.filter fun c => ¬ c.2.atime < cleanLine⟩, true)

/-! ### The run sequence (`Run`, gorun.go:62-124)

`Run` is a straight-line function around a bounded retry loop.  External
observations (the two `Stat`s, the `Chtimes` results, the per-attempt
`Compile` and `syscall.Exec` outcomes) are supplied by a `RunEnv` oracle
record; the performed effects are recorded in a trace.  `Compile` is
abstracted here by its outcome plus the `FileInfo` it publishes at the
entry path on success (its internals are modelled separately below). -/

inductive ExecRes where
  | ok
  | errNotExist
  | errOther (msg : String)
deriving DecidableEq, Repr

inductive REffect where
  | chtimesBase (at_ mt : Int)
  | cleanCall
  | compileCall (attempt : Nat)
  | chtimesEntry (at_ mt : Int)
  | execTry (attempt : Nat)
deriving DecidableEq, Repr

inductive ROutcome where
  | errorReturn (msg : String)
  | handoff
  | panicked (msg : String)
  | returnedNil
deriving DecidableEq, Repr

structure RunEnv where
  /-- `os.Stat(sourcefile)`: `none` is a stat error. -/
  sstat : Option FileInfo
  /-- `os.Stat(runFile)`: `none` is a stat error (entry absent). -/
  rstat : Option FileInfo
  /-- Metadata of the cache-root directory `runBaseDir` itself. -/
  baseInfo : FileInfo
  /-- Whether `os.Chtimes(runBaseDir, now, now)` succeeds. -/
  chtimesBaseOk : Bool
  cleanEnv : CleanDirEnv
  baseDir : DirState
  now : Int
  /-- Per-attempt `Compile` outcome (`none` = success). -/
  compileRes : Nat → Option String
  /-- The `FileInfo` found at the entry path right after a successful
  compile-and-rename (as produced by `go build` plus `os.Rename`). -/
  published : FileInfo
  /-- Per-attempt result of `os.Chtimes(runFile, smtime, smtime)`. -/
  chtimesEntryOk : Nat → Bool
  /-- Per-attempt `syscall.Exec(runFile, args, environ)` result. -/
  execRes : Nat → ExecRes

structure RunResult where
  outcome : ROutcome
  /-- Metadata at the entry path when the run ends (as far as this run
  changed or observed it). -/
  entry : Option FileInfo
  /-- Metadata of the cache-root directory when the run ends. -/
  baseInfo : FileInfo
  baseDir : DirState
  trace : List REffect

/-- One attempt's post-`Compile` file info: `os.Chtimes(runFile, smtime,
smtime)` applied to the published entry. -/
def stampTimes (fi : FileInfo) (smtime : Int) : FileInfo :=
  ⟨fi.kind, fi.perm, smtime, smtime⟩

/-- The retry loop of `Run` (gorun.go:99-123), recursing on the `retry`
counter (initially 3).  `lastErr` is the `err` variable live across
iterations. -/
def runLoop (env : RunEnv) (smtime : Int) :
    Nat → Nat → Bool → Option FileInfo → Option String → List REffect →
    ROutcome × Option FileInfo × List REffect
  | 0, _, _, entry, lastErr, trace =>
    match lastErr with
    | some _ => (.panicked "exec returned but succeeded", entry, trace)
    | none => (.returnedNil, entry, trace)
  | retry + 1, attempt, compile, entry, _, trace =>
    let afterCompile :
        Option FileInfo → List REffect → ROutcome × Option FileInfo × List REffect :=
      fun entry1 trace1 =>
        match env.execRes attempt with
        | .ok => (.handoff, entry1, trace1 ++ [.execTry attempt])
        | .errNotExist =>
          runLoop env smtime retry (attempt + 1) true none
            (some "no such file or directory") (trace1 ++ [.execTry attempt])
        | .errOther _ =>
          (.panicked "exec returned but succeeded", entry1, trace1 ++ [.execTry attempt])
    if compile then
      match env.compileRes attempt with
      | some e => (.errorReturn e, entry, trace ++ [.compileCall attempt])
      | none =>
        if env.chtimesEntryOk attempt then
          afterCompile (some (stampTimes env.published smtime))
            (trace ++ [.compileCall attempt, .chtimesEntry smtime smtime])
        else
          (.errorReturn "chtimes runFile failed", some env.published,
            trace ++ [.compileCall attempt])
    else
      afterCompile entry trace

/-- `Run(args)` (gorun.go:62-124) after path resolution: the freshness
decision over the source's and the entry's stat results, the cache-hit
housekeeping (`Chtimes` on `runBaseDir` gating `CleanDir`, whose error is
returned), then the compile/exec retry loop. -/
def Run (env : RunEnv) : RunResult :=
  match env.sstat with
  | none => ⟨.errorReturn "stat sourcefile failed", env.rstat, env.baseInfo, env.baseDir, []⟩
  | some s =>
    match env.rstat with
    | none =>
      let res := runLoop env s.mtime 3 0 true none none []
      ⟨res.1, res.2.1, env.baseInfo, env.baseDir, res.2.2⟩
    | some r =>
      if irregular r.kind then
        ⟨.errorReturn "not a file: runFile", some r, env.baseInfo, env.baseDir, []⟩
      else if r.mtime < s.mtime ∨ r.perm &&& 0o700 ≠ 0o700 then
        let res := runLoop env s.mtime 3 0 true (some r) none []
        ⟨res.1, res.2.1, env.baseInfo, env.baseDir, res.2.2⟩
      else
        if env.chtimesBaseOk then
          let baseInfo1 : FileInfo :=
            ⟨env.baseInfo.kind, env.baseInfo.perm, env.now, env.now⟩
          let tr0 : List REffect := [.chtimesBase env.now env.now, .cleanCall]
          let cres := CleanDir env.cleanEnv env.baseDir env.now
          match cres.1 with
          | some e => ⟨.errorReturn e, some r, baseInfo1, cres.2.1, tr0⟩
          | none =>
            let res := runLoop env s.mtime 3 0 false (some r) none tr0
            ⟨res.1, res.2.1, baseInfo1, cres.2.1, res.2.2⟩
        else
          let res := runLoop env s.mtime 3 0 false (some r) none []
          ⟨res.1, res.2.1, env.baseInfo, env.baseDir, res.2.2⟩

/-! ### Comment-embedded sections (`getSection`, gorun.go:126-140)

`getSection(content, name)` extracts the text between the markers
`"// <name> >>>"` and `"// <<< <name>"` and strips the comment prefixes.
Go's slice `content[startIdx+len(start):idxEnd]` is modelled with
`take`/`drop` (which clamp where Go would panic on a pathological
overlap of the two markers). -/

def getSection (content : Str) (sectionName : Str) : Str :=
  let start := "// ".data ++ sectionName ++ " >>>".data
  let endMark := "// <<< ".data ++ sectionName
  match goIndexOf content start with
  | none => []
  | some startIdx =>
    match goIndexOf content endMark with
    | none => []
    | some idxEnd =>
      if startIdx < idxEnd then
        let goMod := (content.take idxEnd).drop (startIdx + start.length)
        let goMod := goReplace goMod "\n// ".data "\n".data (-1)
        goReplace goMod "\n//".data "\n".data (-1)
      else []

/-! ### The builder (`Compile`, gorun.go:158-228)

`Compile(sourcefile, runFile, runCmdDir)` over an explicit filesystem
(an association list from paths to file contents) plus an effect trace.
Fallible syscalls are driven by oracles; the toolchain binary's location
(`$GOROOT/bin/go`, falling back to `exec.LookPath("go")`) is abstracted to
the name `go` since no claim depends on it.  The deferred
`os.Remove` of the temporary source copy runs on every exit path after the
copy is written, exactly as Go's `defer` does. -/

def lookupFs : List (Str × Str) → Str → Option Str
  | [], _ => none
  | (p, c) :: rest, path => if p = path then some c else lookupFs rest path

def setFs : List (Str × Str) → Str → Str → List (Str × Str)
  | [], path, c => [(path, c)]
  | (p, c0) :: rest, path, c =>
    if p = path then (p, c) :: rest else (p, c0) :: setFs rest path c

def removeFs : List (Str × Str) → Str → List (Str × Str)
  | [], _ => []
  | (p, c) :: rest, path => if p = path then removeFs rest path else (p, c) :: removeFs rest path

inductive CEffect where
  | removeF (path : Str)
  | writeF (path : Str) (content : Str)
  | renameF (src dst : Str)
  | runTool (dir : Str) (envAdds : Str) (args : List Str)
deriving DecidableEq, Repr

/-- Does an effect create, overwrite, rename onto, or remove the node at
`p`?  (`runTool` only makes its `-o` output appear, recorded separately as
a `writeF`; `MkdirAll` creates directories, never a binary.) -/
def touches (e : CEffect) (p : Str) : Bool :=
  match e with
  | .removeF q => q = p
  | .writeF q _ => q = p
  | .renameF _ q => q = p
  | .runTool _ _ _ => false

structure CompileEnv where
  mkdirOk : Bool
  writeModOk : Bool
  writeSumOk : Bool
  writeTmpOk : Bool
  gotoolFound : Bool
  toolchainOk : Bool
  renameOk : Bool
  /-- Content of the binary the toolchain leaves at the temporary output
  path on success. -/
  builtContent : Str

/-- `ioutil.ReadFile(sourcefile)` with the error discarded (gorun.go:166):
a missing file reads as empty content. -/
def compileContent0 (fs : List (Str × Str)) (sourcefile : Str) : Str :=
  (lookupFs fs sourcefile).getD []

/-- `len(content) > 2 && content[0] == '#' && content[1] == '!'`
(gorun.go:167): whether the interpreter-directive rewrite fires. -/
def compileRewritten (fs : List (Str × Str)) (sourcefile : Str) : Bool :=
  match compileContent0 fs sourcefile with
  | '#' :: '!' :: _ :: _ => true
  | _ => false

/-- The in-memory content after the (possible) `#!` → `//` rewrite
(gorun.go:167-171). -/
def compileContent (fs : List (Str × Str)) (sourcefile : Str) : Str :=
  match compileContent0 fs sourcefile with
  | '#' :: '!' :: c :: rest => '/' :: '/' :: c :: rest
  | other => other

/-- `writtenSource || writtenMod || writtenSum` (gorun.go:195): on the
non-error paths the two "written" flags equal the nonemptiness of the
corresponding comment sections. -/
def compileCopyNeeded (fs : List (Str × Str)) (sourcefile : Str) : Bool :=
  compileRewritten fs sourcefile ||
  !(getSection (compileContent fs sourcefile) "go.mod".data).isEmpty ||
  !(getSection (compileContent fs sourcefile) "go.sum".data).isEmpty

/-- `os.Remove(file)` followed by `writeFileFromComments(content, name,
file)` (gorun.go:142-154, 176-190): remove the stale section file, then
write the section when nonempty; a failed write aborts the compile. -/
def sectionStep (writeOk : Bool) (file sect : Str) (fs : List (Str × Str))
    (tr : List CEffect) : Option String × List (Str × Str) × List CEffect :=
  let fs1 := removeFs fs file
  let tr1 := tr ++ [CEffect.removeF file]
  if sect.isEmpty then (none, fs1, tr1)
  else if writeOk then (none, setFs fs1 file sect, tr1 ++ [CEffect.writeF file sect])
  else (some "write section failed", fs1, tr1)

/-- Toolchain lookup and invocation, rename publication, and the deferred
removal of the temporary source copy (gorun.go:205-227).  The deferred
`os.Remove` runs on every exit path once the copy exists, exactly as Go's
`defer` does. -/
def buildStep (env : CompileEnv) (runFile tmpSrc srcArg execDir envAdds : Str)
    (copyNeeded : Bool) (pid : Str) (fs : List (Str × Str)) (tr : List CEffect) :
    Option String × List (Str × Str) × List CEffect :=
  let fin : Option String → List (Str × Str) → List CEffect →
      Option String × List (Str × Str) × List CEffect :=
    fun res f t =>
      if copyNeeded then (res, removeFs f tmpSrc, t ++ [CEffect.removeF tmpSrc])
      else (res, f, t)
  if !env.gotoolFound then fin (some "can't find go tool") fs tr
  else
    let out := runFile ++ ".".data ++ pid
    let buildArgs := ["go".data, "build".data, "-o".data, out, srcArg]
    if !env.toolchainOk then
      fin (some "failed to run go") fs (tr ++ [CEffect.runTool execDir envAdds buildArgs])
    else
      let fs6 := setFs fs out env.builtContent
      let tr6 := tr ++ [CEffect.runTool execDir envAdds buildArgs,
        CEffect.writeF out env.builtContent]
      if !env.renameOk then fin (some "rename failed") fs6 tr6
      else
        fin none (setFs (removeFs fs6 out) runFile env.builtContent)
          (tr6 ++ [CEffect.renameF out runFile])

/-- The go.mod section stage applied to the initial state (gorun.go:177-182). -/
def compileS1 (env : CompileEnv) (fs : List (Str × Str)) (sourcefile runCmdDir : Str) :
    Option String × List (Str × Str) × List CEffect :=
  sectionStep env.writeModOk (runCmdDir ++ "go.mod".data)
    (getSection (compileContent fs sourcefile) "go.mod".data) fs []

/-- The go.sum section stage applied after the go.mod stage (gorun.go:184-190). -/
def compileS2 (env : CompileEnv) (fs : List (Str × Str)) (sourcefile runCmdDir : Str) :
    Option String × List (Str × Str) × List CEffect :=
  sectionStep env.writeSumOk (runCmdDir ++ "go.sum".data)
    (getSection (compileContent fs sourcefile) "go.sum".data)
    (compileS1 env fs sourcefile runCmdDir).2.1 (compileS1 env fs sourcefile runCmdDir).2.2

/-- The pid-qualified private source copy path (gorun.go:196). -/
def compileTmpSrc (runFile pid : Str) : Str := runFile ++ ".".data ++ pid ++ ".go".data

/-- The filesystem after the (possible) private-copy write (gorun.go:195-203). -/
def compileFs5 (env : CompileEnv) (fs : List (Str × Str))
    (sourcefile runFile runCmdDir pid : Str) : List (Str × Str) :=
  if compileCopyNeeded fs sourcefile then
    setFs (compileS2 env fs sourcefile runCmdDir).2.1 (compileTmpSrc runFile pid)
      (compileContent fs sourcefile)
  else (compileS2 env fs sourcefile runCmdDir).2.1

/-- The trace after the (possible) private-copy write. -/
def compileTr5 (env : CompileEnv) (fs : List (Str × Str))
    (sourcefile runFile runCmdDir pid : Str) : List CEffect :=
  (compileS2 env fs sourcefile runCmdDir).2.2 ++
    (if compileCopyNeeded fs sourcefile then
      [CEffect.writeF (compileTmpSrc runFile pid) (compileContent fs sourcefile)] else [])

def Compile (env : CompileEnv) (fs : List (Str × Str))
    (sourcefile runFile runCmdDir pid : Str) :
    Option String × List (Str × Str) × List CEffect :=
  if !env.mkdirOk then (some "mkdir runCmdDir failed", fs, []) else
  if (compileS1 env fs sourcefile runCmdDir).1.isSome then
    ((compileS1 env fs sourcefile runCmdDir).1, (compileS1 env fs sourcefile runCmdDir).2.1,
      (compileS1 env fs sourcefile runCmdDir).2.2) else
  if (compileS2 env fs sourcefile runCmdDir).1.isSome then
    ((compileS2 env fs sourcefile runCmdDir).1, (compileS2 env fs sourcefile runCmdDir).2.1,
      (compileS2 env fs sourcefile runCmdDir).2.2) else
  if compileCopyNeeded fs sourcefile && !env.writeTmpOk then
    (some "write temporary source failed", (compileS2 env fs sourcefile runCmdDir).2.1,
      (compileS2 env fs sourcefile runCmdDir).2.2)
  else
    buildStep env runFile (compileTmpSrc runFile pid)
      (if compileCopyNeeded fs sourcefile then compileTmpSrc runFile pid else sourcefile)
      (if compileCopyNeeded fs sourcefile then runCmdDir else [])
      (getSection (compileContent fs sourcefile) "go.env".data)
      (compileCopyNeeded fs sourcefile) pid
      (compileFs5 env fs sourcefile runFile runCmdDir pid)
      (compileTr5 env fs sourcefile runFile runCmdDir pid)

/-! ### Cache-root acquisition (`RunBaseDir`, gorun.go:300-334)

After the writable-tempdir and hostname checks (which return their own
errors), `RunBaseDir` enters a `for` loop over candidate directories
indexed by the disambiguation counter `i` (candidate 0 has no suffix).  A
candidate is accepted when `Stat` succeeds on a directory with mode
exactly 0700 owned by the effective uid, or when it does not exist and
`MkdirAll` succeeds.  The loop body contains no error exit and the loop
has no iteration bound; it is modelled with an explicit fuel argument. -/

inductive CandStat where
  | ok (isDir : Bool) (perm : Nat) (uid : Nat)
  | errNotExist
  | errOther
deriving DecidableEq, Repr

structure BaseDirEnv where
  euid : Nat
  stat : Nat → CandStat
  mkdirOk : Nat → Bool

/-- Whether candidate `i` is accepted by the loop body. -/
def candAccepted (env : BaseDirEnv) (i : Nat) : Bool :=
  match env.stat i with
  | .ok d p u => d && decide (p = 0o700) && decide (u = env.euid)
  | .errNotExist => env.mkdirOk i
  | .errOther => false

/-- The acquisition loop, started at candidate `i` with the given fuel;
`none` means the fuel ran out with no candidate accepted. -/
def runBaseDirLoop (env : BaseDirEnv) : Nat → Nat → Option Nat
  | _, 0 => none
  | i, fuel + 1 =>
    if candAccepted env i then some i else runBaseDirLoop env (i + 1) fuel

/-- The loop terminates in some finite number of iterations. -/
def runBaseDirTerminates (env : BaseDirEnv) : Prop :=
  ∃ fuel r, runBaseDirLoop env 0 fuel = some r

/-! ### Concrete example inputs used by the closed theorems below -/

def exSrcInfo : FileInfo := ⟨.regular, 0o644, 50, 50⟩

def exEntInfo : FileInfo := ⟨.regular, 0o755, 60, 5⟩

def exBaseInfo : FileInfo := ⟨.dir, 0o700, 10, 10⟩

def exNoFail : CleanDirEnv := ⟨false, false, false, false⟩

def exPub : FileInfo := ⟨.regular, 0o755, 999, 999⟩

/-- A cache-hit run: entry fresh, full owner rwx, housekeeping and exec
succeed. -/
def exHitEnv : RunEnv :=
  ⟨some exSrcInfo, some exEntInfo, exBaseInfo, true, exNoFail, ⟨[]⟩, 100,
    fun _ => none, exPub, fun _ => true, fun _ => .ok⟩

/-- A cache-hit run whose `syscall.Exec` fails with a non-ENOENT error
(e.g. EACCES from a noexec mount or ENOEXEC from a foreign binary). -/
def exExecPermEnv : RunEnv :=
  ⟨some exSrcInfo, some exEntInfo, exBaseInfo, true, exNoFail, ⟨[]⟩, 100,
    fun _ => none, exPub, fun _ => true, fun _ => .errOther "permission denied"⟩

/-- A run with no cache entry where every `syscall.Exec` attempt fails with
ENOENT (the entry keeps being swept away). -/
def exVanishEnv : RunEnv :=
  ⟨some exSrcInfo, none, exBaseInfo, true, exNoFail, ⟨[]⟩, 100,
    fun _ => none, exPub, fun _ => true, fun _ => .errNotExist⟩

/-- A cache-hit run where creating the last-cleaned marker fails. -/
def exSweepErrEnv : RunEnv :=
  ⟨some exSrcInfo, some exEntInfo, exBaseInfo, true, ⟨true, false, false, false⟩, ⟨[]⟩, 100,
    fun _ => none, exPub, fun _ => true, fun _ => .ok⟩

/-- A stale-entry run (entry mtime 40 < source mtime 50), everything
succeeds. -/
def exStaleEnv : RunEnv :=
  ⟨some exSrcInfo, some ⟨.regular, 0o755, 40, 5⟩, exBaseInfo, true, exNoFail, ⟨[]⟩, 100,
    fun _ => none, exPub, fun _ => true, fun _ => .ok⟩

/-- A second run against the entry stamped by `exStaleEnv`'s compile
(times 50 = the source mtime), with the source unchanged. -/
def exSecondRunEnv : RunEnv :=
  ⟨some exSrcInfo, some ⟨.regular, 0o755, 50, 50⟩, exBaseInfo, true, exNoFail, ⟨[]⟩, 200,
    fun _ => none, exPub, fun _ => true, fun _ => .ok⟩

/-- A second run against the stamped entry after the source was touched to
mtime 75. -/
def exTouchedRunEnv : RunEnv :=
  ⟨some ⟨.regular, 0o644, 75, 75⟩, some ⟨.regular, 0o755, 50, 50⟩, exBaseInfo, true,
    exNoFail, ⟨[]⟩, 200, fun _ => none, exPub, fun _ => true, fun _ => .ok⟩

/-- A cache root with one child last accessed just beyond the retention
window and one child exactly at its edge; no marker yet. -/
def exSweepDir : DirState :=
  ⟨[("e1".data, ⟨.dir, 0o700, 0, 100 - CleanFileDelay - 1⟩),
    ("e2".data, ⟨.dir, 0o700, 0, 100 - CleanFileDelay⟩)]⟩

def exCompileEnvOk : CompileEnv := ⟨true, true, true, true, true, true, true, "ELF".data⟩

def exCompileEnvBuildFail : CompileEnv :=
  ⟨true, true, true, true, true, false, true, "ELF".data⟩

/-- A source file whose content is exactly the two bytes `#!`. -/
def exShebangOnlyFs : List (Str × Str) := [("/home/u/script.go".data, "#!".data)]

/-- A source file with an interpreter directive line. -/
def exShebangFs : List (Str × Str) :=
  [("/home/u/script.go".data, "#!/usr/bin/gorun\npackage main\n".data)]

def exSrcPath : Str := "/home/u/script.go".data

def exRunCmdDir : Str := "/c/d/".data

def exRunFile : Str := "/c/d/script.go.gorun".data

def exPid : Str := "7".data

/-- An adversarial cache-root environment: every candidate exists as a
directory owned by another uid with mode 0755, so none is ever trusted and
none can be freshly created. -/
def exBadBaseEnv : BaseDirEnv := ⟨1000, fun _ => .ok true 0o755 0, fun _ => false⟩

/-- A benign cache-root environment: no candidate exists and creation
succeeds. -/
def exGoodBaseEnv : BaseDirEnv := ⟨1000, fun _ => .errNotExist, fun _ => true⟩

/-! ### Helper lemmas -/

lemma ne_of_length_lt {s t : Str} (h : s.length < t.length) : s ≠ t := by
  intro he
  rw [he] at h
  exact lt_irrefl _ h

lemma ne_dot_ext (s t u : Str) : s ≠ s ++ ".".data ++ t ++ u := by
  apply ne_of_length_lt
  simp [List.length_append]

lemma ne_dot_ext2 (s t : Str) : s ≠ s ++ ".".data ++ t := by
  apply ne_of_length_lt
  simp [List.length_append]

lemma lookupFs_removeFs (fs : List (Str × Str)) (p q : Str) (h : q ≠ p) :
    lookupFs (removeFs fs p) q = lookupFs fs q := by
  have hpq : ¬ p = q := fun he => h he.symm
  induction fs with
  | nil => rfl
  | cons a rest ih =>
    obtain ⟨x, c0⟩ := a
    by_cases hp : x = p
    · subst hp
      simp [removeFs, lookupFs, hpq, ih]
    · by_cases hq : x = q
      · subst hq
        simp [removeFs, lookupFs, hp]
      · simp [removeFs, lookupFs, hp, hq, ih]

lemma lookupFs_setFs (fs : List (Str × Str)) (p c q : Str) (h : q ≠ p) :
    lookupFs (setFs fs p c) q = lookupFs fs q := by
  have hpq : ¬ p = q := fun he => h he.symm
  induction fs with
  | nil => simp [setFs, lookupFs, hpq]
  | cons a rest ih =>
    obtain ⟨x, c0⟩ := a
    by_cases hp : x = p
    · subst hp
      simp [setFs, lookupFs, hpq]
    · by_cases hq : x = q
      · subst hq
        simp [setFs, lookupFs, hp]
      · simp [setFs, lookupFs, hp, hq, ih]

/-! Single-step evaluation lemmas for the retry loop. -/

lemma runLoop_zero_some (env : RunEnv) (m : Int) (attempt : Nat) (c : Bool)
    (e : Option FileInfo) (msg : String) (tr : List REffect) :
    runLoop env m 0 attempt c e (some msg) tr =
      (.panicked "exec returned but succeeded", e, tr) := by
  simp [runLoop]

lemma runLoop_zero_none (env : RunEnv) (m : Int) (attempt : Nat) (c : Bool)
    (e : Option FileInfo) (tr : List REffect) :
    runLoop env m 0 attempt c e none tr = (.returnedNil, e, tr) := by
  simp [runLoop]

lemma runLoop_step_ok (env : RunEnv) (m : Int) (n attempt : Nat) (e : Option FileInfo)
    (le : Option String) (tr : List REffect) (hx : env.execRes attempt = .ok) :
    runLoop env m (n + 1) attempt false e le tr =
      (.handoff, e, tr ++ [.execTry attempt]) := by
  simp [runLoop, hx]

lemma runLoop_step_notExist (env : RunEnv) (m : Int) (n attempt : Nat)
    (e : Option FileInfo) (le : Option String) (tr : List REffect)
    (hx : env.execRes attempt = .errNotExist) :
    runLoop env m (n + 1) attempt false e le tr =
      runLoop env m n (attempt + 1) true none (some "no such file or directory")
        (tr ++ [.execTry attempt]) := by
  simp [runLoop, hx]

lemma runLoop_step_other (env : RunEnv) (m : Int) (n attempt : Nat) (e : Option FileInfo)
    (le : Option String) (tr : List REffect) (msg : String)
    (hx : env.execRes attempt = .errOther msg) :
    runLoop env m (n + 1) attempt false e le tr =
      (.panicked "exec returned but succeeded", e, tr ++ [.execTry attempt]) := by
  simp [runLoop, hx]

lemma runLoop_step_compile_err (env : RunEnv) (m : Int) (n attempt : Nat)
    (e : Option FileInfo) (le : Option String) (tr : List REffect) (e2 : String)
    (hcr : env.compileRes attempt = some e2) :
    runLoop env m (n + 1) attempt true e le tr =
      (.errorReturn e2, e, tr ++ [.compileCall attempt]) := by
  simp [runLoop, hcr]

lemma runLoop_step_compile_chtimes_fail (env : RunEnv) (m : Int) (n attempt : Nat)
    (e : Option FileInfo) (le : Option String) (tr : List REffect)
    (hcr : env.compileRes attempt = none) (hct : env.chtimesEntryOk attempt = false) :
    runLoop env m (n + 1) attempt true e le tr =
      (.errorReturn "chtimes runFile failed", some env.published,
        tr ++ [.compileCall attempt]) := by
  simp [runLoop, hcr, hct]

lemma runLoop_step_compile_ok (env : RunEnv) (m : Int) (n attempt : Nat)
    (e : Option FileInfo) (le : Option String) (tr : List REffect)
    (hcr : env.compileRes attempt = none) (hct : env.chtimesEntryOk attempt = true)
    (hx : env.execRes attempt = .ok) :
    runLoop env m (n + 1) attempt true e le tr =
      (.handoff, some (stampTimes env.published m),
        tr ++ [.compileCall attempt, .chtimesEntry m m, .execTry attempt]) := by
  simp [runLoop, hcr, hct, hx]

lemma runLoop_step_compile_notExist (env : RunEnv) (m : Int) (n attempt : Nat)
    (e : Option FileInfo) (le : Option String) (tr : List REffect)
    (hcr : env.compileRes attempt = none) (hct : env.chtimesEntryOk attempt = true)
    (hx : env.execRes attempt = .errNotExist) :
    runLoop env m (n + 1) attempt true e le tr =
      runLoop env m n (attempt + 1) true none (some "no such file or directory")
        (tr ++ [.compileCall attempt, .chtimesEntry m m, .execTry attempt]) := by
  simp [runLoop, hcr, hct, hx]

lemma runLoop_step_compile_other (env : RunEnv) (m : Int) (n attempt : Nat)
    (e : Option FileInfo) (le : Option String) (tr : List REffect) (msg : String)
    (hcr : env.compileRes attempt = none) (hct : env.chtimesEntryOk attempt = true)
    (hx : env.execRes attempt = .errOther msg) :
    runLoop env m (n + 1) attempt true e le tr =
      (.panicked "exec returned but succeeded", some (stampTimes env.published m),
        tr ++ [.compileCall attempt, .chtimesEntry m m, .execTry attempt]) := by
  simp [runLoop, hcr, hct, hx]

/-- Effects appended by the retry loop extend the incoming trace; appended
compile effects carry attempt indices at least the starting one; the loop
never emits a sweeper call. -/
lemma runLoop_trace_shape (env : RunEnv) (m : Int) :
    ∀ retry attempt c e le tr,
      ∃ Δ, (runLoop env m retry attempt c e le tr).2.2 = tr ++ Δ ∧
        (∀ k, REffect.compileCall k ∈ Δ → attempt ≤ k) ∧
        REffect.cleanCall ∉ Δ := by
  intro retry
  induction retry with
  | zero =>
    intro attempt c e le tr
    refine ⟨[], ?_, by simp, by simp⟩
    cases le with
    | none => rw [runLoop_zero_none]; simp
    | some msg => rw [runLoop_zero_some]; simp
  | succ n ih =>
    intro attempt c e le tr
    cases c with
    | false =>
      cases hx : env.execRes attempt with
      | ok =>
        exact ⟨[.execTry attempt], by rw [runLoop_step_ok env m n attempt e le tr hx],
          by simp, by simp⟩
      | errNotExist =>
        obtain ⟨Δ, hΔ, hk, hcc⟩ :=
          ih (attempt + 1) true none (some "no such file or directory")
            (tr ++ [.execTry attempt])
        refine ⟨.execTry attempt :: Δ, ?_, ?_, ?_⟩
        · rw [runLoop_step_notExist env m n attempt e le tr hx, hΔ]
          simp
        · intro k hk2
          simp only [List.mem_cons] at hk2
          rcases hk2 with h | h
          · cases h
          · exact Nat.le_of_succ_le (hk k h)
        · simp only [List.mem_cons, not_or]
          exact ⟨by simp, hcc⟩
      | errOther msg =>
        exact ⟨[.execTry attempt],
          by rw [runLoop_step_other env m n attempt e le tr msg hx], by simp, by simp⟩
    | true =>
      cases hcr : env.compileRes attempt with
      | some e2 =>
        exact ⟨[.compileCall attempt],
          by rw [runLoop_step_compile_err env m n attempt e le tr e2 hcr], by simp, by simp⟩
      | none =>
        cases hct : env.chtimesEntryOk attempt with
        | false =>
          exact ⟨[.compileCall attempt],
            by rw [runLoop_step_compile_chtimes_fail env m n attempt e le tr hcr hct],
            by simp, by simp⟩
        | true =>
          cases hx : env.execRes attempt with
          | ok =>
            exact ⟨[.compileCall attempt, .chtimesEntry m m, .execTry attempt],
              by rw [runLoop_step_compile_ok env m n attempt e le tr hcr hct hx],
              by simp, by simp⟩
          | errNotExist =>
            obtain ⟨Δ, hΔ, hk, hcc⟩ :=
              ih (attempt + 1) true none (some "no such file or directory")
                (tr ++ [.compileCall attempt, .chtimesEntry m m, .execTry attempt])
            refine ⟨.compileCall attempt :: .chtimesEntry m m :: .execTry attempt :: Δ,
              ?_, ?_, ?_⟩
            · rw [runLoop_step_compile_notExist env m n attempt e le tr hcr hct hx, hΔ]
              simp
            · intro k hk2
              simp only [List.mem_cons] at hk2
              rcases hk2 with h | h | h | h
              · cases h; exact le_refl _
              · cases h
              · cases h
              · exact Nat.le_of_succ_le (hk k h)
            · simp only [List.mem_cons, not_or]
              exact ⟨by simp, by simp, by simp, hcc⟩
          | errOther msg =>
            exact ⟨[.compileCall attempt, .chtimesEntry m m, .execTry attempt],
              by rw [runLoop_step_compile_other env m n attempt e le tr msg hcr hct hx],
              by simp, by simp⟩

/-- A compiling attempt always records its compile step in the trace. -/
lemma runLoop_compile_starts (env : RunEnv) (m : Int) (n attempt : Nat)
    (e : Option FileInfo) (le : Option String) (tr : List REffect) :
    REffect.compileCall attempt ∈ (runLoop env m (n + 1) attempt true e le tr).2.2 := by
  cases hcr : env.compileRes attempt with
  | some e2 => rw [runLoop_step_compile_err env m n attempt e le tr e2 hcr]; simp
  | none =>
    cases hct : env.chtimesEntryOk attempt with
    | false => rw [runLoop_step_compile_chtimes_fail env m n attempt e le tr hcr hct]; simp
    | true =>
      cases hx : env.execRes attempt with
      | ok => rw [runLoop_step_compile_ok env m n attempt e le tr hcr hct hx]; simp
      | errNotExist =>
        obtain ⟨Δ, hΔ, _, _⟩ := runLoop_trace_shape env m n (attempt + 1) true none
          (some "no such file or directory")
          (tr ++ [.compileCall attempt, .chtimesEntry m m, .execTry attempt])
        rw [runLoop_step_compile_notExist env m n attempt e le tr hcr hct hx, hΔ]
        simp
      | errOther msg =>
        rw [runLoop_step_compile_other env m n attempt e le tr msg hcr hct hx]; simp

/-- A loop started on a non-compiling attempt only records compile steps
for strictly later attempts (beyond what the incoming trace held). -/
lemma runLoop_no_first_compile (env : RunEnv) (m : Int) (n attempt : Nat)
    (e : Option FileInfo) (le : Option String) (tr : List REffect) :
    ∀ k, REffect.compileCall k ∈ (runLoop env m n attempt false e le tr).2.2 →
      REffect.compileCall k ∈ tr ∨ attempt + 1 ≤ k := by
  intro k hk
  cases n with
  | zero =>
    left
    cases le with
    | none => rw [runLoop_zero_none] at hk; exact hk
    | some msg => rw [runLoop_zero_some] at hk; exact hk
  | succ n' =>
    cases hx : env.execRes attempt with
    | ok =>
      rw [runLoop_step_ok env m n' attempt e le tr hx] at hk
      simp only [List.mem_append, List.mem_singleton] at hk
      rcases hk with h | h
      · exact Or.inl h
      · cases h
    | errNotExist =>
      rw [runLoop_step_notExist env m n' attempt e le tr hx] at hk
      obtain ⟨Δ, hΔ, hge, _⟩ := runLoop_trace_shape env m n' (attempt + 1) true none
        (some "no such file or directory") (tr ++ [.execTry attempt])
      rw [hΔ] at hk
      simp only [List.mem_append, List.mem_singleton] at hk
      rcases hk with (h | h) | h
      · exact Or.inl h
      · cases h
      · exact Or.inr (hge k h)
    | errOther msg =>
      rw [runLoop_step_other env m n' attempt e le tr msg hx] at hk
      simp only [List.mem_append, List.mem_singleton] at hk
      rcases hk with h | h
      · exact Or.inl h
      · cases h

/-- The loop never emits a sweeper call beyond the incoming trace. -/
lemma runLoop_no_cleanCall (env : RunEnv) (m : Int) (n attempt : Nat) (c : Bool)
    (e : Option FileInfo) (le : Option String) (tr : List REffect)
    (htr : REffect.cleanCall ∉ tr) :
    REffect.cleanCall ∉ (runLoop env m n attempt c e le tr).2.2 := by
  obtain ⟨Δ, hΔ, _, hcc⟩ := runLoop_trace_shape env m n attempt c e le tr
  rw [hΔ]
  simp only [List.mem_append, not_or]
  exact ⟨htr, hcc⟩

/-- When a loop whose current attempt compiles reaches the handoff, the
entry carries the source modification time stamped by `os.Chtimes`. -/
lemma runLoop_handoff_stamped (env : RunEnv) (m : Int) :
    ∀ n attempt e le tr,
      (runLoop env m n attempt true e le tr).1 = .handoff →
      (runLoop env m n attempt true e le tr).2.1 = some (stampTimes env.published m) := by
  intro n
  induction n with
  | zero =>
    intro attempt e le tr h
    cases le with
    | none => rw [runLoop_zero_none] at h; cases h
    | some msg => rw [runLoop_zero_some] at h; cases h
  | succ n' ih =>
    intro attempt e le tr h
    cases hcr : env.compileRes attempt with
    | some e2 => rw [runLoop_step_compile_err env m n' attempt e le tr e2 hcr] at h; cases h
    | none =>
      cases hct : env.chtimesEntryOk attempt with
      | false =>
        rw [runLoop_step_compile_chtimes_fail env m n' attempt e le tr hcr hct] at h
        cases h
      | true =>
        cases hx : env.execRes attempt with
        | ok => rw [runLoop_step_compile_ok env m n' attempt e le tr hcr hct hx]
        | errNotExist =>
          rw [runLoop_step_compile_notExist env m n' attempt e le tr hcr hct hx] at h ⊢
          exact ih (attempt + 1) none (some "no such file or directory") _ h
        | errOther msg =>
          rw [runLoop_step_compile_other env m n' attempt e le tr msg hcr hct hx] at h
          cases h

/-! Unfolding lemmas for the branches of `Run`. -/

lemma Run_rstat_none (env : RunEnv) (s : FileInfo) (hs : env.sstat = some s)
    (hr : env.rstat = none) :
    Run env = ⟨(runLoop env s.mtime 3 0 true none none []).1,
      (runLoop env s.mtime 3 0 true none none []).2.1, env.baseInfo, env.baseDir,
      (runLoop env s.mtime 3 0 true none none []).2.2⟩ := by
  simp [Run, hs, hr]

lemma Run_irregular (env : RunEnv) (s r : FileInfo) (hs : env.sstat = some s)
    (hr : env.rstat = some r) (hk : irregular r.kind = true) :
    Run env = ⟨.errorReturn "not a file: runFile", some r, env.baseInfo, env.baseDir, []⟩ := by
  simp [Run, hs, hr, hk]

lemma Run_stale (env : RunEnv) (s r : FileInfo) (hs : env.sstat = some s)
    (hr : env.rstat = some r) (hk : irregular r.kind = false)
    (hcond : r.mtime < s.mtime ∨ r.perm &&& 0o700 ≠ 0o700) :
    Run env = ⟨(runLoop env s.mtime 3 0 true (some r) none []).1,
      (runLoop env s.mtime 3 0 true (some r) none []).2.1, env.baseInfo, env.baseDir,
      (runLoop env s.mtime 3 0 true (some r) none []).2.2⟩ := by
  simp [Run, hs, hr, hk, hcond]

lemma Run_hit_sweep_err (env : RunEnv) (s r : FileInfo) (hs : env.sstat = some s)
    (hr : env.rstat = some r) (hk : irregular r.kind = false)
    (hm : ¬ r.mtime < s.mtime) (hp : r.perm &&& 0o700 = 0o700)
    (hb : env.chtimesBaseOk = true) (e : String)
    (hcd : (CleanDir env.cleanEnv env.baseDir env.now).1 = some e) :
    Run env = ⟨.errorReturn e, some r,
      ⟨env.baseInfo.kind, env.baseInfo.perm, env.now, env.now⟩,
      (CleanDir env.cleanEnv env.baseDir env.now).2.1,
      [REffect.chtimesBase env.now env.now, REffect.cleanCall]⟩ := by
  simp [Run, hs, hr, hk, hm, hp, hb, hcd]

lemma Run_hit_sweep_ok (env : RunEnv) (s r : FileInfo) (hs : env.sstat = some s)
    (hr : env.rstat = some r) (hk : irregular r.kind = false)
    (hm : ¬ r.mtime < s.mtime) (hp : r.perm &&& 0o700 = 0o700)
    (hb : env.chtimesBaseOk = true)
    (hcd : (CleanDir env.cleanEnv env.baseDir env.now).1 = none) :
    Run env = ⟨(runLoop env s.mtime 3 0 false (some r) none
        [REffect.chtimesBase env.now env.now, REffect.cleanCall]).1,
      (runLoop env s.mtime 3 0 false (some r) none
        [REffect.chtimesBase env.now env.now, REffect.cleanCall]).2.1,
      ⟨env.baseInfo.kind, env.baseInfo.perm, env.now, env.now⟩,
      (CleanDir env.cleanEnv env.baseDir env.now).2.1,
      (runLoop env s.mtime 3 0 false (some r) none
        [REffect.chtimesBase env.now env.now, REffect.cleanCall]).2.2⟩ := by
  simp [Run, hs, hr, hk, hm, hp, hb, hcd]

lemma Run_hit_chtimes_fail (env : RunEnv) (s r : FileInfo) (hs : env.sstat = some s)
    (hr : env.rstat = some r) (hk : irregular r.kind = false)
    (hm : ¬ r.mtime < s.mtime) (hp : r.perm &&& 0o700 = 0o700)
    (hb : env.chtimesBaseOk = false) :
    Run env = ⟨(runLoop env s.mtime 3 0 false (some r) none []).1,
      (runLoop env s.mtime 3 0 false (some r) none []).2.1, env.baseInfo, env.baseDir,
      (runLoop env s.mtime 3 0 false (some r) none []).2.2⟩ := by
  simp [Run, hs, hr, hk, hm, hp, hb]

lemma runBaseDirLoop_none (env : BaseDirEnv) (hno : ∀ i, candAccepted env i = false) :
    ∀ fuel i, runBaseDirLoop env i fuel = none := by
  intro fuel
  induction fuel with
  | zero => intro i; rfl
  | succ n ih => intro i; simp [runBaseDirLoop, hno i, ih (i + 1)]

lemma runBaseDirLoop_some_accepted (env : BaseDirEnv) :
    ∀ fuel i j, runBaseDirLoop env i fuel = some j → candAccepted env j = true := by
  intro fuel
  induction fuel with
  | zero => intro i j h; simp [runBaseDirLoop] at h
  | succ n ih =>
    intro i j h
    by_cases hc : candAccepted env i
    · simp [runBaseDirLoop, hc] at h
      exact h ▸ hc
    · simp [runBaseDirLoop, hc] at h
      exact ih (i + 1) j h

lemma runBaseDirLoop_reaches (env : BaseDirEnv) :
    ∀ k i, candAccepted env (i + k) = true →
      ∃ j, runBaseDirLoop env i (k + 1) = some j := by
  intro k
  induction k with
  | zero =>
    intro i h
    exact ⟨i, by simp [runBaseDirLoop, show candAccepted env i = true from h]⟩
  | succ m ih =>
    intro i h
    by_cases hc : candAccepted env i
    · exact ⟨i, by simp [runBaseDirLoop, hc]⟩
    · have h' : candAccepted env (i + 1 + m) = true := by
        have he : i + 1 + m = i + (m + 1) := by omega
        rw [he]; exact h
      obtain ⟨j, hj⟩ := ih (i + 1) h'
      refine ⟨j, ?_⟩
      simpa only [runBaseDirLoop, if_neg hc] using hj

/-! ### Claim theorems -/

/-- C10: invoked with an empty argument list, the program does not report a
usage error; it substitutes the single argument `"."` and proceeds with the
normal run sequence on the current directory. -/
theorem c10_empty_args_runs_dot : mainDispatch [] = .runWith [".".data] := by decide

/-- C8 counterexample: the cache-slot mapping is not injective.  The two
distinct resolved source paths `/a_/x/b` and `/a/_x/b` are assigned the
same per-source cache directory and the same cache-entry file. -/
theorem c8_counterexample :
    runCmdDirOf "/tmp/cache".data "/a_/x/b".data =
      runCmdDirOf "/tmp/cache".data "/a/_x/b".data ∧
    runFileOf "/tmp/cache".data "/a_/x/b".data =
      runFileOf "/tmp/cache".data "/a/_x/b".data ∧
    "/a_/x/b".data ≠ "/a/_x/b".data := by decide

/-- C8 (amended): the mapping from a resolved source path to its cache slot
is deterministic (a pure function of the path), and the specific nested
pair `/a/b_c` versus `/a_b/c` do not collide; but the mapping is not
injective in general: distinct resolved paths such as `/a_/x/b` and
`/a/_x/b` map to the same cache slot. -/
theorem c8_slot_mapping_deterministic_not_injective :
    (∀ base p q : Str, p = q →
      runCmdDirOf base p = runCmdDirOf base q ∧ runFileOf base p = runFileOf base q) ∧
    runFileOf "/tmp/cache".data "/a/b_c".data ≠ runFileOf "/tmp/cache".data "/a_b/c".data ∧
    (runFileOf "/tmp/cache".data "/a_/x/b".data =
        runFileOf "/tmp/cache".data "/a/_x/b".data ∧
      "/a_/x/b".data ≠ "/a/_x/b".data) := by
  refine ⟨fun base p q h => by rw [h]; exact ⟨rfl, rfl⟩, by decide, by decide, by decide⟩

/-- C8 witness: the determinism conjunct applied at a concrete path. -/
theorem c8_slot_mapping_witness :
    runCmdDirOf "/tmp/cache".data "/x/y.go".data = runCmdDirOf "/tmp/cache".data "/x/y.go".data ∧
    runFileOf "/tmp/cache".data "/x/y.go".data = runFileOf "/tmp/cache".data "/x/y.go".data :=
  c8_slot_mapping_deterministic_not_injective.1 "/tmp/cache".data "/x/y.go".data
    "/x/y.go".data rfl

/-- C7 counterexample: the cache-root acquisition loop can run forever.  In
an environment where every candidate directory exists with mode 0755 owned
by another uid, no iteration accepts and no environment error is produced:
the loop does not terminate for any amount of fuel. -/
theorem c7_counterexample : ¬ runBaseDirTerminates exBadBaseEnv := by
  rintro ⟨fuel, r, h⟩
  have hno : ∀ i, candAccepted exBadBaseEnv i = false := fun _ => rfl
  rw [runBaseDirLoop_none exBadBaseEnv hno fuel 0] at h
  cases h

/-- C7 (amended): the cache-root acquisition loop is not bounded.  It
terminates exactly when some candidate is acceptable (an existing directory
with mode exactly 0700 owned by the effective uid, or a nonexistent one
whose creation succeeds); there is no retry cap and no
"no trustworthy cache directory" error, so with no acceptable candidate it
loops forever. -/
theorem c7_acquisition_terminates_iff (env : BaseDirEnv) :
    runBaseDirTerminates env ↔ ∃ i, candAccepted env i = true := by
  constructor
  · rintro ⟨fuel, r, h⟩
    exact ⟨r, runBaseDirLoop_some_accepted env fuel 0 r h⟩
  · rintro ⟨i, hi⟩
    obtain ⟨j, hj⟩ := runBaseDirLoop_reaches env i 0 (by simpa using hi)
    exact ⟨i + 1, j, hj⟩

/-- C7 witness: in the benign environment the loop terminates. -/
theorem c7_acquisition_terminates_iff_witness : runBaseDirTerminates exGoodBaseEnv :=
  (c7_acquisition_terminates_iff exGoodBaseEnv).mpr ⟨0, by decide⟩

/-- C6: the sweep is rate-limited and exact.  If the marker's mtime is
strictly within the retention window of `now` the sweep returns immediately
with no scan and no removal; otherwise (marker absent or at least
`CleanFileDelay` old) it first writes `now` into the marker and then keeps
exactly the listed children whose last-access time is at or after
`now - CleanFileDelay`, removing the strictly older ones wholesale. -/
theorem c6_sweep_rate_limited_and_exact (env : CleanDirEnv) (d : DirState) (now : Int) :
    (∀ info, lookupChild d.children markerName = some info →
      now - CleanFileDelay < info.mtime →
      CleanDir env d now = (none, d, false)) ∧
    (env.createFails = false → env.writeFails = false → env.openFails = false →
      env.readdirFails = false →
      (∀ info, lookupChild d.children markerName = some info →
        info.mtime ≤ now - CleanFileDelay) →
      CleanDir env d now =
        (none,
          ⟨(writeMarker d now).children.filter fun c => ¬ c.2.atime < now - CleanFileDelay⟩,
          true)) := by
  constructor
  · intro info hinfo hfresh
    simp [CleanDir, hinfo, hfresh]
  · intro h1 h2 h3 h4 hstale
    have hrec : (match lookupChild d.children markerName with
        | some info => decide (now - CleanFileDelay < info.mtime)
        | none => false) = false := by
      cases hm : lookupChild d.children markerName with
      | none => rfl
      | some info =>
        simp only [decide_eq_false_iff_not, not_lt]
        exact hstale info hm
    simp [CleanDir, hrec, h1, h2, h3, h4]

/-- C6 witness: sweeping the concrete root at time 100 with no marker
removes the child aged past the window and retains the edge child and the
fresh marker. -/
theorem c6_sweep_witness :
    CleanDir exNoFail exSweepDir 100 =
      (none,
        ⟨(writeMarker exSweepDir 100).children.filter
          fun c => ¬ c.2.atime < 100 - CleanFileDelay⟩,
        true) :=
  (c6_sweep_rate_limited_and_exact exNoFail exSweepDir 100).2 rfl rfl rfl rfl
    (fun _ h => Option.noConfusion h)

/-- C1 counterexample: a concrete cache-hit invocation (handoff reached,
sweeper invoked) in which the entry's access/modification times stay at
(5, 60) instead of being refreshed to the current time 100 — the refresh
lands on the cache root's directory metadata instead. -/
theorem c1_counterexample :
    (Run exHitEnv).outcome = .handoff ∧
    (Run exHitEnv).entry = some ⟨.regular, 0o755, 60, 5⟩ ∧
    (Run exHitEnv).baseInfo = ⟨.dir, 0o700, 100, 100⟩ ∧
    REffect.cleanCall ∈ (Run exHitEnv).trace ∧
    exHitEnv.now = 100 ∧ (5 : Int) ≠ 100 ∧ (60 : Int) ≠ 100 := by
  refine ⟨rfl, rfl, rfl, ?_, rfl, by decide, by decide⟩
  show REffect.cleanCall ∈ [REffect.chtimesBase 100 100, REffect.cleanCall,
    REffect.execTry 0]
  simp

/-- C1 (amended): the freshness decision follows the claimed case analysis,
except that on a cache hit it is the CACHE ROOT directory's (not the
entry's) access and modification times that are refreshed to the current
time: entry absent → compile; irregular entry → integrity error with no
compile and no exec; entry older than source or owner bits short of rwx →
compile; otherwise cache hit: attempt 0 never compiles, the entry's
metadata is left as stat observed it, the root's times become `now` when
the refresh succeeds, and the sweeper is invoked exactly when that refresh
succeeds (a failed refresh skips the sweep, without error and without
touching any state). -/
theorem c1_freshness_decision (env : RunEnv) (s : FileInfo) (hs : env.sstat = some s) :
    (env.rstat = none → REffect.compileCall 0 ∈ (Run env).trace) ∧
    (∀ r, env.rstat = some r → irregular r.kind = true →
      Run env = ⟨.errorReturn "not a file: runFile", some r, env.baseInfo,
        env.baseDir, []⟩) ∧
    (∀ r, env.rstat = some r → irregular r.kind = false →
      (r.mtime < s.mtime ∨ r.perm &&& 0o700 ≠ 0o700) →
      REffect.compileCall 0 ∈ (Run env).trace) ∧
    (∀ r, env.rstat = some r → irregular r.kind = false → ¬ r.mtime < s.mtime →
      r.perm &&& 0o700 = 0o700 →
      REffect.compileCall 0 ∉ (Run env).trace ∧
      (env.execRes 0 = .ok → (Run env).entry = some r) ∧
      (env.chtimesBaseOk = true →
        (Run env).baseInfo = ⟨env.baseInfo.kind, env.baseInfo.perm, env.now, env.now⟩ ∧
        REffect.cleanCall ∈ (Run env).trace) ∧
      (env.chtimesBaseOk = false →
        (Run env).baseInfo = env.baseInfo ∧ (Run env).baseDir = env.baseDir ∧
        REffect.cleanCall ∉ (Run env).trace)) := by
  refine ⟨?_, ?_, ?_, ?_⟩
  · intro hr
    rw [Run_rstat_none env s hs hr]
    exact runLoop_compile_starts env s.mtime 2 0 none none []
  · intro r hr hk
    exact Run_irregular env s r hs hr hk
  · intro r hr hk hcond
    rw [Run_stale env s r hs hr hk hcond]
    exact runLoop_compile_starts env s.mtime 2 0 (some r) none []
  · intro r hr hk hm hp
    have h3 : (3 : Nat) = 2 + 1 := rfl
    cases hb : env.chtimesBaseOk with
    | true =>
      cases hcd : (CleanDir env.cleanEnv env.baseDir env.now).1 with
      | some e =>
        rw [Run_hit_sweep_err env s r hs hr hk hm hp hb e hcd]
        refine ⟨?_, ?_, ?_, ?_⟩
        · simp
        · intro _
          rfl
        · intro _
          exact ⟨rfl, by simp⟩
        · intro ht
          cases ht
      | none =>
        rw [Run_hit_sweep_ok env s r hs hr hk hm hp hb hcd]
        refine ⟨?_, ?_, ?_, ?_⟩
        · intro hmem
          rcases runLoop_no_first_compile env s.mtime 3 0 (some r) none
            [REffect.chtimesBase env.now env.now, REffect.cleanCall] 0 hmem with h | h
          · simp at h
          · omega
        · intro hx
          show (runLoop env s.mtime 3 0 false (some r) none
            [REffect.chtimesBase env.now env.now, REffect.cleanCall]).2.1 = some r
          rw [h3, runLoop_step_ok env s.mtime 2 0 (some r) none
            [REffect.chtimesBase env.now env.now, REffect.cleanCall] hx]
        · intro _
          refine ⟨rfl, ?_⟩
          obtain ⟨Δ, hΔ, _, _⟩ := runLoop_trace_shape env s.mtime 3 0 false (some r) none
            [REffect.chtimesBase env.now env.now, REffect.cleanCall]
          show REffect.cleanCall ∈ (runLoop env s.mtime 3 0 false (some r) none
            [REffect.chtimesBase env.now env.now, REffect.cleanCall]).2.2
          rw [hΔ]
          simp
        · intro ht
          cases ht
    | false =>
      rw [Run_hit_chtimes_fail env s r hs hr hk hm hp hb]
      refine ⟨?_, ?_, ?_, ?_⟩
      · intro hmem
        rcases runLoop_no_first_compile env s.mtime 3 0 (some r) none [] 0 hmem with h | h
        · simp at h
        · omega
      · intro hx
        show (runLoop env s.mtime 3 0 false (some r) none []).2.1 = some r
        rw [h3, runLoop_step_ok env s.mtime 2 0 (some r) none [] hx]
      · intro ht
        cases ht
      · intro _
        exact ⟨rfl, rfl,
          runLoop_no_cleanCall env s.mtime 3 0 false (some r) none [] (by simp)⟩

/-- C1 witness: the amended cache-hit clause applied to the concrete
cache-hit environment. -/
theorem c1_freshness_decision_witness :
    REffect.compileCall 0 ∉ (Run exHitEnv).trace ∧
    REffect.cleanCall ∈ (Run exHitEnv).trace := by
  have h := (c1_freshness_decision exHitEnv exSrcInfo rfl).2.2.2 exEntInfo rfl
    (by decide) (by decide) (by decide)
  exact ⟨h.1, (h.2.2.1 rfl).2⟩

/-- C4: the divergence, evaluated.  On a fresh cache hit whose exec fails
with a non-ENOENT error, `Run` panics with the (inverted) guard message
"exec returned but succeeded" instead of returning the error; and when the
three ENOENT retries are exhausted, it panics as well instead of surfacing
the last error.  The bound of 3 total attempts is visible in the traces. -/
theorem c4_exec_failure_panics_instead_of_error :
    (Run exExecPermEnv).outcome = .panicked "exec returned but succeeded" ∧
    (Run exExecPermEnv).trace =
      [REffect.chtimesBase 100 100, REffect.cleanCall, REffect.execTry 0] ∧
    (Run exVanishEnv).outcome = .panicked "exec returned but succeeded" ∧
    (Run exVanishEnv).trace =
      [REffect.compileCall 0, REffect.chtimesEntry 50 50, REffect.execTry 0,
       REffect.compileCall 1, REffect.chtimesEntry 50 50, REffect.execTry 1,
       REffect.compileCall 2, REffect.chtimesEntry 50 50, REffect.execTry 2] :=
  ⟨rfl, rfl, rfl, rfl⟩

/-- C5 counterexample: in a concrete cache-hit run where creating the
last-cleaned marker fails, the invocation terminates with the sweep's error
and never attempts the exec handoff — contradicting "never fatal to the
surrounding execution". -/
theorem c5_counterexample :
    (Run exSweepErrEnv).outcome = .errorReturn "create last-cleaned failed" ∧
    (Run exSweepErrEnv).outcome ≠ .handoff ∧
    (Run exSweepErrEnv).trace = [REffect.chtimesBase 100 100, REffect.cleanCall] := by
  refine ⟨rfl, ?_, rfl⟩
  intro h
  rw [show (Run exSweepErrEnv).outcome =
    .errorReturn "create last-cleaned failed" from rfl] at h
  cases h

/-- C5 (amended): on a cache hit where the root refresh succeeds and the
sweep fails on the marker (or on listing the root), the sweep's error is
fatal to the whole invocation: `Run` returns exactly that error and never
reaches the exec handoff. -/
theorem c5_sweep_error_aborts_run (env : RunEnv) (s r : FileInfo)
    (hs : env.sstat = some s) (hr : env.rstat = some r)
    (hk : irregular r.kind = false) (hm : ¬ r.mtime < s.mtime)
    (hp : r.perm &&& 0o700 = 0o700) (hb : env.chtimesBaseOk = true)
    (e : String) (hcd : (CleanDir env.cleanEnv env.baseDir env.now).1 = some e) :
    Run env = ⟨.errorReturn e, some r,
      ⟨env.baseInfo.kind, env.baseInfo.perm, env.now, env.now⟩,
      (CleanDir env.cleanEnv env.baseDir env.now).2.1,
      [REffect.chtimesBase env.now env.now, REffect.cleanCall]⟩ :=
  Run_hit_sweep_err env s r hs hr hk hm hp hb e hcd

/-- C5 witness: the amended statement applied to the concrete failing-sweep
environment. -/
theorem c5_sweep_error_aborts_run_witness :
    Run exSweepErrEnv = ⟨.errorReturn "create last-cleaned failed", some exEntInfo,
      ⟨exBaseInfo.kind, exBaseInfo.perm, 100, 100⟩,
      (CleanDir exSweepErrEnv.cleanEnv exSweepErrEnv.baseDir 100).2.1,
      [REffect.chtimesBase 100 100, REffect.cleanCall]⟩ :=
  c5_sweep_error_aborts_run exSweepErrEnv exSrcInfo exEntInfo rfl rfl (by decide)
    (by decide) (by decide) rfl "create last-cleaned failed" rfl

/-- C3: a run that had to compile and reached the handoff leaves the entry
with both times equal to the source's modification time observed at the
start of the run (not the current time); consequently a later run against
that entry takes the cache-hit branch (no compile) when the source is
unchanged, and compiles again when the source was touched to a strictly
later modification time. -/
theorem c3_publish_restores_source_mtime (env : RunEnv) (s : FileInfo)
    (hs : env.sstat = some s)
    (hneed : env.rstat = none ∨ ∃ r, env.rstat = some r ∧ irregular r.kind = false ∧
      (r.mtime < s.mtime ∨ r.perm &&& 0o700 ≠ 0o700)) :
    ((Run env).outcome = .handoff →
      (Run env).entry = some (stampTimes env.published s.mtime) ∧
      (stampTimes env.published s.mtime).mtime = s.mtime ∧
      (stampTimes env.published s.mtime).atime = s.mtime) ∧
    (∀ env₂ : RunEnv, env₂.sstat = some s →
      env₂.rstat = some (stampTimes env.published s.mtime) →
      env.published.kind = .regular → env.published.perm &&& 0o700 = 0o700 →
      REffect.compileCall 0 ∉ (Run env₂).trace) ∧
    (∀ env₃ : RunEnv, ∀ s₃ : FileInfo, env₃.sstat = some s₃ →
      env₃.rstat = some (stampTimes env.published s.mtime) →
      env.published.kind = .regular → s.mtime < s₃.mtime →
      REffect.compileCall 0 ∈ (Run env₃).trace) := by
  refine ⟨?_, ?_, ?_⟩
  · intro hh
    rcases hneed with hr | ⟨r, hr, hk, hcond⟩
    · rw [Run_rstat_none env s hs hr] at hh ⊢
      exact ⟨runLoop_handoff_stamped env s.mtime 3 0 none none [] hh, rfl, rfl⟩
    · rw [Run_stale env s r hs hr hk hcond] at hh ⊢
      exact ⟨runLoop_handoff_stamped env s.mtime 3 0 (some r) none [] hh, rfl, rfl⟩
  · intro env₂ hs₂ hr₂ hkind hperm
    have hk₂ : irregular (stampTimes env.published s.mtime).kind = false := by
      simp [stampTimes, hkind, irregular]
    have hm₂ : ¬ (stampTimes env.published s.mtime).mtime < s.mtime := by
      simp [stampTimes]
    have hp₂ : (stampTimes env.published s.mtime).perm &&& 0o700 = 0o700 := by
      simpa [stampTimes] using hperm
    cases hb : env₂.chtimesBaseOk with
    | true =>
      cases hcd : (CleanDir env₂.cleanEnv env₂.baseDir env₂.now).1 with
      | some e =>
        rw [Run_hit_sweep_err env₂ s _ hs₂ hr₂ hk₂ hm₂ hp₂ hb e hcd]
        simp
      | none =>
        rw [Run_hit_sweep_ok env₂ s _ hs₂ hr₂ hk₂ hm₂ hp₂ hb hcd]
        intro hmem
        rcases runLoop_no_first_compile env₂ s.mtime 3 0
          (some (stampTimes env.published s.mtime)) none
          [REffect.chtimesBase env₂.now env₂.now, REffect.cleanCall] 0 hmem with h | h
        · simp at h
        · omega
    | false =>
      rw [Run_hit_chtimes_fail env₂ s _ hs₂ hr₂ hk₂ hm₂ hp₂ hb]
      intro hmem
      rcases runLoop_no_first_compile env₂ s.mtime 3 0
        (some (stampTimes env.published s.mtime)) none [] 0 hmem with h | h
      · simp at h
      · omega
  · intro env₃ s₃ hs₃ hr₃ hkind hlt
    have hk₃ : irregular (stampTimes env.published s.mtime).kind = false := by
      simp [stampTimes, hkind, irregular]
    have hcond : (stampTimes env.published s.mtime).mtime < s₃.mtime ∨
        (stampTimes env.published s.mtime).perm &&& 0o700 ≠ 0o700 := by
      left
      simpa [stampTimes] using hlt
    rw [Run_stale env₃ s₃ _ hs₃ hr₃ hk₃ hcond]
    exact runLoop_compile_starts env₃ s₃.mtime 2 0 _ none []

/-- C3 witness: the stale-entry run stamps the entry with the source's
mtime 50; a second run on that stamped entry with the source unchanged does
not compile; a second run after the source was touched to mtime 75
compiles. -/
theorem c3_publish_restores_source_mtime_witness :
    (Run exStaleEnv).entry = some (stampTimes exStaleEnv.published 50) ∧
    REffect.compileCall 0 ∉ (Run exSecondRunEnv).trace ∧
    REffect.compileCall 0 ∈ (Run exTouchedRunEnv).trace := by
  have h := c3_publish_restores_source_mtime exStaleEnv exSrcInfo rfl
    (Or.inr ⟨⟨.regular, 0o755, 40, 5⟩, rfl, by decide, Or.inl (by decide)⟩)
  exact ⟨(h.1 rfl).1, h.2.1 exSecondRunEnv rfl rfl rfl (by decide),
    h.2.2 exTouchedRunEnv ⟨.regular, 0o644, 75, 75⟩ rfl rfl rfl (by decide)⟩
/-! Stage lemmas for the builder. -/

lemma sectionStep_trace (writeOk : Bool) (file sect : Str) (fs : List (Str × Str))
    (tr : List CEffect) :
    ∃ Δ, (sectionStep writeOk file sect fs tr).2.2 = tr ++ Δ ∧
      ∀ e ∈ Δ, e = CEffect.removeF file ∨ e = CEffect.writeF file sect := by
  simp only [sectionStep]
  split_ifs with h1 h2
  · exact ⟨[CEffect.removeF file], rfl, by simp⟩
  · exact ⟨[CEffect.removeF file, CEffect.writeF file sect], by simp, by simp⟩
  · exact ⟨[CEffect.removeF file], rfl, by simp⟩

lemma sectionStep_lookup (writeOk : Bool) (file sect : Str) (fs : List (Str × Str))
    (tr : List CEffect) (q : Str) (h : q ≠ file) :
    lookupFs (sectionStep writeOk file sect fs tr).2.1 q = lookupFs fs q := by
  simp only [sectionStep]
  split_ifs with h1 h2
  · exact lookupFs_removeFs fs file q h
  · rw [lookupFs_setFs _ _ _ _ h, lookupFs_removeFs fs file q h]
  · exact lookupFs_removeFs fs file q h

lemma sectionStep_ok (writeOk : Bool) (file sect : Str) (fs : List (Str × Str))
    (tr : List CEffect) (hok : writeOk = true) :
    (sectionStep writeOk file sect fs tr).1 = none := by
  simp only [sectionStep]
  split_ifs <;> simp_all

lemma buildStep_trace (env : CompileEnv) (runFile tmpSrc srcArg execDir envAdds : Str)
    (copyNeeded : Bool) (pid : Str) (fs : List (Str × Str)) (tr : List CEffect) :
    ∃ Δ, (buildStep env runFile tmpSrc srcArg execDir envAdds copyNeeded pid fs tr).2.2 =
        tr ++ Δ ∧
      ∀ e ∈ Δ, e = CEffect.removeF tmpSrc ∨
        e = CEffect.runTool execDir envAdds
          ["go".data, "build".data, "-o".data, runFile ++ ".".data ++ pid, srcArg] ∨
        e = CEffect.writeF (runFile ++ ".".data ++ pid) env.builtContent ∨
        e = CEffect.renameF (runFile ++ ".".data ++ pid) runFile := by
  simp only [buildStep]
  cases hg : env.gotoolFound with
  | false =>
    cases hc : copyNeeded with
    | false => exact ⟨[], by simp, by simp⟩
    | true => exact ⟨[CEffect.removeF tmpSrc], by simp, by simp⟩
  | true =>
    cases ht : env.toolchainOk with
    | false =>
      cases hc : copyNeeded with
      | false =>
        exact ⟨[CEffect.runTool execDir envAdds
          ["go".data, "build".data, "-o".data, runFile ++ ".".data ++ pid, srcArg]],
          by simp, by simp⟩
      | true =>
        exact ⟨[CEffect.runTool execDir envAdds
            ["go".data, "build".data, "-o".data, runFile ++ ".".data ++ pid, srcArg],
          CEffect.removeF tmpSrc], by simp, by simp⟩
    | true =>
      cases hr : env.renameOk with
      | false =>
        cases hc : copyNeeded with
        | false =>
          exact ⟨[CEffect.runTool execDir envAdds
              ["go".data, "build".data, "-o".data, runFile ++ ".".data ++ pid, srcArg],
            CEffect.writeF (runFile ++ ".".data ++ pid) env.builtContent],
            by simp, by simp⟩
        | true =>
          exact ⟨[CEffect.runTool execDir envAdds
              ["go".data, "build".data, "-o".data, runFile ++ ".".data ++ pid, srcArg],
            CEffect.writeF (runFile ++ ".".data ++ pid) env.builtContent,
            CEffect.removeF tmpSrc], by simp, by simp⟩
      | true =>
        cases hc : copyNeeded with
        | false =>
          exact ⟨[CEffect.runTool execDir envAdds
              ["go".data, "build".data, "-o".data, runFile ++ ".".data ++ pid, srcArg],
            CEffect.writeF (runFile ++ ".".data ++ pid) env.builtContent,
            CEffect.renameF (runFile ++ ".".data ++ pid) runFile], by simp, by simp⟩
        | true =>
          exact ⟨[CEffect.runTool execDir envAdds
              ["go".data, "build".data, "-o".data, runFile ++ ".".data ++ pid, srcArg],
            CEffect.writeF (runFile ++ ".".data ++ pid) env.builtContent,
            CEffect.renameF (runFile ++ ".".data ++ pid) runFile,
            CEffect.removeF tmpSrc], by simp, by simp⟩

lemma buildStep_fail (env : CompileEnv) (runFile tmpSrc srcArg execDir envAdds : Str)
    (copyNeeded : Bool) (pid : Str) (fs : List (Str × Str)) (tr : List CEffect)
    (htc : env.toolchainOk = false) :
    (buildStep env runFile tmpSrc srcArg execDir envAdds copyNeeded pid fs tr).1.isSome
        = true ∧
    (∃ Δ, (buildStep env runFile tmpSrc srcArg execDir envAdds copyNeeded pid fs tr).2.2 =
        tr ++ Δ ∧
      ∀ e ∈ Δ, e = CEffect.removeF tmpSrc ∨
        e = CEffect.runTool execDir envAdds
          ["go".data, "build".data, "-o".data, runFile ++ ".".data ++ pid, srcArg]) ∧
    ∀ q, q ≠ tmpSrc →
      lookupFs (buildStep env runFile tmpSrc srcArg execDir envAdds copyNeeded pid fs tr).2.1 q
        = lookupFs fs q := by
  simp only [buildStep]
  rw [htc]
  cases hg : env.gotoolFound with
  | false =>
    cases hc : copyNeeded with
    | false =>
      exact ⟨by simp, ⟨[], by simp, by simp⟩, fun q hq => by simp⟩
    | true =>
      exact ⟨by simp, ⟨[CEffect.removeF tmpSrc], by simp, by simp⟩,
        fun q hq => by simp [lookupFs_removeFs, hq]⟩
  | true =>
    cases hc : copyNeeded with
    | false =>
      exact ⟨by simp, ⟨[CEffect.runTool execDir envAdds
        ["go".data, "build".data, "-o".data, runFile ++ ".".data ++ pid, srcArg]],
        by simp, by simp⟩, fun q hq => by simp⟩
    | true =>
      exact ⟨by simp, ⟨[CEffect.runTool execDir envAdds
          ["go".data, "build".data, "-o".data, runFile ++ ".".data ++ pid, srcArg],
        CEffect.removeF tmpSrc], by simp, by simp⟩,
        fun q hq => by simp [lookupFs_removeFs, hq]⟩

lemma buildStep_lookup (env : CompileEnv) (runFile tmpSrc srcArg execDir envAdds : Str)
    (copyNeeded : Bool) (pid : Str) (fs : List (Str × Str)) (tr : List CEffect)
    (q : Str) (hq1 : q ≠ tmpSrc) (hq2 : q ≠ runFile ++ ".".data ++ pid)
    (hq3 : q ≠ runFile) :
    lookupFs (buildStep env runFile tmpSrc srcArg execDir envAdds copyNeeded pid fs tr).2.1 q
      = lookupFs fs q := by
  have hq2' : q ≠ runFile ++ '.' :: pid := by simpa using hq2
  simp only [buildStep]
  cases hg : env.gotoolFound <;> cases ht : env.toolchainOk <;>
    cases hr : env.renameOk <;> cases hc : copyNeeded <;>
      simp [lookupFs_removeFs, lookupFs_setFs, hq1, hq2, hq2', hq3]

lemma compileS1_effects (env : CompileEnv) (fs : List (Str × Str))
    (sourcefile runCmdDir : Str) :
    ∀ e ∈ (compileS1 env fs sourcefile runCmdDir).2.2,
      e = CEffect.removeF (runCmdDir ++ "go.mod".data) ∨
      e = CEffect.writeF (runCmdDir ++ "go.mod".data)
        (getSection (compileContent fs sourcefile) "go.mod".data) := by
  intro e he
  obtain ⟨Δ1, hΔ1, m1⟩ := sectionStep_trace env.writeModOk (runCmdDir ++ "go.mod".data)
    (getSection (compileContent fs sourcefile) "go.mod".data) fs []
  rw [show (compileS1 env fs sourcefile runCmdDir).2.2 =
    (sectionStep env.writeModOk (runCmdDir ++ "go.mod".data)
      (getSection (compileContent fs sourcefile) "go.mod".data) fs []).2.2 from rfl,
    hΔ1] at he
  simp only [List.nil_append] at he
  exact m1 e he

lemma compileS2_effects (env : CompileEnv) (fs : List (Str × Str))
    (sourcefile runCmdDir : Str) :
    ∀ e ∈ (compileS2 env fs sourcefile runCmdDir).2.2,
      e = CEffect.removeF (runCmdDir ++ "go.mod".data) ∨
      e = CEffect.writeF (runCmdDir ++ "go.mod".data)
        (getSection (compileContent fs sourcefile) "go.mod".data) ∨
      e = CEffect.removeF (runCmdDir ++ "go.sum".data) ∨
      e = CEffect.writeF (runCmdDir ++ "go.sum".data)
        (getSection (compileContent fs sourcefile) "go.sum".data) := by
  intro e he
  obtain ⟨Δ2, hΔ2, m2⟩ := sectionStep_trace env.writeSumOk (runCmdDir ++ "go.sum".data)
    (getSection (compileContent fs sourcefile) "go.sum".data)
    (compileS1 env fs sourcefile runCmdDir).2.1 (compileS1 env fs sourcefile runCmdDir).2.2
  rw [show (compileS2 env fs sourcefile runCmdDir).2.2 =
    (sectionStep env.writeSumOk (runCmdDir ++ "go.sum".data)
      (getSection (compileContent fs sourcefile) "go.sum".data)
      (compileS1 env fs sourcefile runCmdDir).2.1
      (compileS1 env fs sourcefile runCmdDir).2.2).2.2 from rfl, hΔ2] at he
  rcases List.mem_append.mp he with h | h
  · rcases compileS1_effects env fs sourcefile runCmdDir e h with h' | h'
    · exact Or.inl h'
    · exact Or.inr (Or.inl h')
  · rcases m2 e h with h' | h'
    · exact Or.inr (Or.inr (Or.inl h'))
    · exact Or.inr (Or.inr (Or.inr h'))

lemma compileTr5_effects (env : CompileEnv) (fs : List (Str × Str))
    (sourcefile runFile runCmdDir pid : Str) :
    ∀ e ∈ compileTr5 env fs sourcefile runFile runCmdDir pid,
      e = CEffect.removeF (runCmdDir ++ "go.mod".data) ∨
      e = CEffect.writeF (runCmdDir ++ "go.mod".data)
        (getSection (compileContent fs sourcefile) "go.mod".data) ∨
      e = CEffect.removeF (runCmdDir ++ "go.sum".data) ∨
      e = CEffect.writeF (runCmdDir ++ "go.sum".data)
        (getSection (compileContent fs sourcefile) "go.sum".data) ∨
      e = CEffect.writeF (compileTmpSrc runFile pid) (compileContent fs sourcefile) := by
  intro e he
  unfold compileTr5 at he
  rcases List.mem_append.mp he with h | h
  · rcases compileS2_effects env fs sourcefile runCmdDir e h with h' | h' | h' | h'
    · exact Or.inl h'
    · exact Or.inr (Or.inl h')
    · exact Or.inr (Or.inr (Or.inl h'))
    · exact Or.inr (Or.inr (Or.inr (Or.inl h')))
  · cases hcp : compileCopyNeeded fs sourcefile with
    | false => rw [hcp] at h; simp at h
    | true =>
      rw [hcp] at h
      simp at h
      exact Or.inr (Or.inr (Or.inr (Or.inr h)))

/-- Every effect the builder performs is one of a fixed set targeting the
section files, the temporary source copy, the temporary output, or the
single rename onto the entry path. -/
lemma Compile_trace_shape (env : CompileEnv) (fs : List (Str × Str))
    (sourcefile runFile runCmdDir pid : Str) :
    ∀ e ∈ (Compile env fs sourcefile runFile runCmdDir pid).2.2,
      e = CEffect.removeF (runCmdDir ++ "go.mod".data) ∨
      e = CEffect.writeF (runCmdDir ++ "go.mod".data)
        (getSection (compileContent fs sourcefile) "go.mod".data) ∨
      e = CEffect.removeF (runCmdDir ++ "go.sum".data) ∨
      e = CEffect.writeF (runCmdDir ++ "go.sum".data)
        (getSection (compileContent fs sourcefile) "go.sum".data) ∨
      e = CEffect.writeF (compileTmpSrc runFile pid) (compileContent fs sourcefile) ∨
      e = CEffect.removeF (compileTmpSrc runFile pid) ∨
      e = CEffect.runTool (if compileCopyNeeded fs sourcefile then runCmdDir else [])
        (getSection (compileContent fs sourcefile) "go.env".data)
        ["go".data, "build".data, "-o".data, runFile ++ ".".data ++ pid,
          if compileCopyNeeded fs sourcefile then compileTmpSrc runFile pid
          else sourcefile] ∨
      e = CEffect.writeF (runFile ++ ".".data ++ pid) env.builtContent ∨
      e = CEffect.renameF (runFile ++ ".".data ++ pid) runFile := by
  intro e he
  unfold Compile at he
  by_cases h1 : (!env.mkdirOk) = true
  · rw [if_pos h1] at he
    simp at he
  rw [if_neg h1] at he
  by_cases h2 : (compileS1 env fs sourcefile runCmdDir).1.isSome = true
  · rw [if_pos h2] at he
    rcases compileS1_effects env fs sourcefile runCmdDir e he with h | h
    · exact Or.inl h
    · exact Or.inr (Or.inl h)
  rw [if_neg h2] at he
  by_cases h3 : (compileS2 env fs sourcefile runCmdDir).1.isSome = true
  · rw [if_pos h3] at he
    rcases compileS2_effects env fs sourcefile runCmdDir e he with h | h | h | h
    · exact Or.inl h
    · exact Or.inr (Or.inl h)
    · exact Or.inr (Or.inr (Or.inl h))
    · exact Or.inr (Or.inr (Or.inr (Or.inl h)))
  rw [if_neg h3] at he
  by_cases h4 : (compileCopyNeeded fs sourcefile && !env.writeTmpOk) = true
  · rw [if_pos h4] at he
    rcases compileS2_effects env fs sourcefile runCmdDir e he with h | h | h | h
    · exact Or.inl h
    · exact Or.inr (Or.inl h)
    · exact Or.inr (Or.inr (Or.inl h))
    · exact Or.inr (Or.inr (Or.inr (Or.inl h)))
  rw [if_neg h4] at he
  obtain ⟨Δb, hΔb, mb⟩ := buildStep_trace env runFile (compileTmpSrc runFile pid)
      (if compileCopyNeeded fs sourcefile then compileTmpSrc runFile pid else sourcefile)
      (if compileCopyNeeded fs sourcefile then runCmdDir else [])
      (getSection (compileContent fs sourcefile) "go.env".data)
      (compileCopyNeeded fs sourcefile) pid
      (compileFs5 env fs sourcefile runFile runCmdDir pid)
      (compileTr5 env fs sourcefile runFile runCmdDir pid)
  rw [hΔb] at he
  rcases List.mem_append.mp he with h | h
  · rcases compileTr5_effects env fs sourcefile runFile runCmdDir pid e h with
      h' | h' | h' | h' | h'
    · exact Or.inl h'
    · exact Or.inr (Or.inl h')
    · exact Or.inr (Or.inr (Or.inl h'))
    · exact Or.inr (Or.inr (Or.inr (Or.inl h')))
    · exact Or.inr (Or.inr (Or.inr (Or.inr (Or.inl h'))))
  · rcases mb e h with h' | h' | h' | h'
    · exact Or.inr (Or.inr (Or.inr (Or.inr (Or.inr (Or.inl h')))))
    · exact Or.inr (Or.inr (Or.inr (Or.inr (Or.inr (Or.inr (Or.inl h'))))))
    · exact Or.inr (Or.inr (Or.inr (Or.inr (Or.inr (Or.inr (Or.inr (Or.inl h')))))))
    · exact Or.inr (Or.inr (Or.inr (Or.inr (Or.inr (Or.inr (Or.inr (Or.inr h')))))))

/-- Lookups away from all the builder's write targets are preserved. -/
lemma Compile_lookup (env : CompileEnv) (fs : List (Str × Str))
    (sourcefile runFile runCmdDir pid : Str) (q : Str)
    (h1 : q ≠ runCmdDir ++ "go.mod".data) (h2 : q ≠ runCmdDir ++ "go.sum".data)
    (h3 : q ≠ compileTmpSrc runFile pid) (h4 : q ≠ runFile ++ ".".data ++ pid)
    (h5 : q ≠ runFile) :
    lookupFs (Compile env fs sourcefile runFile runCmdDir pid).2.1 q = lookupFs fs q := by
  have hs1 : lookupFs (compileS1 env fs sourcefile runCmdDir).2.1 q = lookupFs fs q :=
    sectionStep_lookup _ _ _ _ _ q h1
  have hs2 : lookupFs (compileS2 env fs sourcefile runCmdDir).2.1 q = lookupFs fs q := by
    rw [show (compileS2 env fs sourcefile runCmdDir).2.1 =
      (sectionStep env.writeSumOk (runCmdDir ++ "go.sum".data)
        (getSection (compileContent fs sourcefile) "go.sum".data)
        (compileS1 env fs sourcefile runCmdDir).2.1
        (compileS1 env fs sourcefile runCmdDir).2.2).2.1 from rfl,
      sectionStep_lookup _ _ _ _ _ q h2, hs1]
  have hf5 : lookupFs (compileFs5 env fs sourcefile runFile runCmdDir pid) q =
      lookupFs fs q := by
    unfold compileFs5
    cases hcp : compileCopyNeeded fs sourcefile with
    | false => simpa using hs2
    | true =>
      rw [if_pos rfl, lookupFs_setFs _ _ _ _ h3, hs2]
  unfold Compile
  by_cases hc1 : (!env.mkdirOk) = true
  · rw [if_pos hc1]
  rw [if_neg hc1]
  by_cases hc2 : (compileS1 env fs sourcefile runCmdDir).1.isSome = true
  · rw [if_pos hc2]
    exact hs1
  rw [if_neg hc2]
  by_cases hc3 : (compileS2 env fs sourcefile runCmdDir).1.isSome = true
  · rw [if_pos hc3]
    exact hs2
  rw [if_neg hc3]
  by_cases hc4 : (compileCopyNeeded fs sourcefile && !env.writeTmpOk) = true
  · rw [if_pos hc4]
    exact hs2
  rw [if_neg hc4]
  rw [buildStep_lookup env runFile (compileTmpSrc runFile pid) _ _ _ _ pid _ _ q h3 h4 h5]
  exact hf5

/-- On toolchain failure the builder reports an error, the trace holds no
rename onto the entry path, and lookups away from the section files and
the temporary copy are preserved. -/
lemma Compile_fail (env : CompileEnv) (fs : List (Str × Str))
    (sourcefile runFile runCmdDir pid : Str) (htc : env.toolchainOk = false) :
    (Compile env fs sourcefile runFile runCmdDir pid).1.isSome = true ∧
    (∀ e ∈ (Compile env fs sourcefile runFile runCmdDir pid).2.2,
      e ≠ CEffect.renameF (runFile ++ ".".data ++ pid) runFile) ∧
    ∀ q, q ≠ runCmdDir ++ "go.mod".data → q ≠ runCmdDir ++ "go.sum".data →
      q ≠ compileTmpSrc runFile pid →
      lookupFs (Compile env fs sourcefile runFile runCmdDir pid).2.1 q = lookupFs fs q := by
  have hfail := buildStep_fail env runFile (compileTmpSrc runFile pid)
    (if compileCopyNeeded fs sourcefile then compileTmpSrc runFile pid else sourcefile)
    (if compileCopyNeeded fs sourcefile then runCmdDir else [])
    (getSection (compileContent fs sourcefile) "go.env".data)
    (compileCopyNeeded fs sourcefile) pid
    (compileFs5 env fs sourcefile runFile runCmdDir pid)
    (compileTr5 env fs sourcefile runFile runCmdDir pid) htc
  have hlook : ∀ q, q ≠ runCmdDir ++ "go.mod".data → q ≠ runCmdDir ++ "go.sum".data →
      q ≠ compileTmpSrc runFile pid →
      lookupFs (compileS2 env fs sourcefile runCmdDir).2.1 q = lookupFs fs q := by
    intro q hq1 hq2 _
    rw [show (compileS2 env fs sourcefile runCmdDir).2.1 =
      (sectionStep env.writeSumOk (runCmdDir ++ "go.sum".data)
        (getSection (compileContent fs sourcefile) "go.sum".data)
        (compileS1 env fs sourcefile runCmdDir).2.1
        (compileS1 env fs sourcefile runCmdDir).2.2).2.1 from rfl,
      sectionStep_lookup _ _ _ _ _ q hq2]
    exact sectionStep_lookup _ _ _ _ _ q hq1
  have hlook5 : ∀ q, q ≠ runCmdDir ++ "go.mod".data → q ≠ runCmdDir ++ "go.sum".data →
      q ≠ compileTmpSrc runFile pid →
      lookupFs (compileFs5 env fs sourcefile runFile runCmdDir pid) q = lookupFs fs q := by
    intro q hq1 hq2 hq3
    unfold compileFs5
    cases hcp : compileCopyNeeded fs sourcefile with
    | false => simpa using hlook q hq1 hq2 hq3
    | true =>
      rw [if_pos rfl, lookupFs_setFs _ _ _ _ hq3]
      exact hlook q hq1 hq2 hq3
  unfold Compile
  by_cases hc1 : (!env.mkdirOk) = true
  · rw [if_pos hc1]
    exact ⟨rfl, by simp, fun q _ _ _ => rfl⟩
  rw [if_neg hc1]
  by_cases hc2 : (compileS1 env fs sourcefile runCmdDir).1.isSome = true
  · rw [if_pos hc2]
    refine ⟨hc2, ?_, ?_⟩
    · intro e he
      rcases compileS1_effects env fs sourcefile runCmdDir e he with h | h <;> subst h <;>
        simp
    · intro q hq1 _ _
      exact sectionStep_lookup _ _ _ _ _ q hq1
  rw [if_neg hc2]
  by_cases hc3 : (compileS2 env fs sourcefile runCmdDir).1.isSome = true
  · rw [if_pos hc3]
    refine ⟨hc3, ?_, hlook⟩
    intro e he
    rcases compileS2_effects env fs sourcefile runCmdDir e he with h | h | h | h <;>
      subst h <;> simp
  rw [if_neg hc3]
  by_cases hc4 : (compileCopyNeeded fs sourcefile && !env.writeTmpOk) = true
  · rw [if_pos hc4]
    refine ⟨rfl, ?_, hlook⟩
    intro e he
    rcases compileS2_effects env fs sourcefile runCmdDir e he with h | h | h | h <;>
      subst h <;> simp
  rw [if_neg hc4]
  refine ⟨hfail.1, ?_, ?_⟩
  · intro e he
    obtain ⟨Δ, hΔ, m⟩ := hfail.2.1
    rw [hΔ] at he
    rcases List.mem_append.mp he with h | h
    · rcases compileTr5_effects env fs sourcefile runFile runCmdDir pid e h with
        h' | h' | h' | h' | h' <;> subst h' <;> simp
    · rcases m e h with h' | h' <;> subst h' <;> simp
  · intro q hq1 hq2 hq3
    rw [hfail.2.2 q hq3]
    exact hlook5 q hq1 hq2 hq3

/-- C2: atomic publication.  For the builder, the temporary output path is
the entry path suffixed with `"."` and the process id; every trace effect
that creates, overwrites, renames onto, or removes the entry path is the
single rename of that temporary output onto the entry path; the toolchain
is always pointed (via `-o`) at that temporary path, never at the entry
path; and on toolchain failure Compile returns an error, performs nothing
that touches the entry path, and leaves the filesystem at the entry path
unchanged. -/
theorem c2_atomic_publish (env : CompileEnv) (fs : List (Str × Str))
    (sourcefile runFile runCmdDir pid : Str)
    (hmod : runFile ≠ runCmdDir ++ "go.mod".data)
    (hsum : runFile ≠ runCmdDir ++ "go.sum".data) :
    (∀ e ∈ (Compile env fs sourcefile runFile runCmdDir pid).2.2,
      touches e runFile = true →
        e = CEffect.renameF (runFile ++ ".".data ++ pid) runFile) ∧
    (∀ dir ea args, CEffect.runTool dir ea args ∈
        (Compile env fs sourcefile runFile runCmdDir pid).2.2 →
      args.get? 3 = some (runFile ++ ".".data ++ pid)) ∧
    (env.toolchainOk = false →
      (Compile env fs sourcefile runFile runCmdDir pid).1.isSome = true ∧
      (∀ e ∈ (Compile env fs sourcefile runFile runCmdDir pid).2.2,
        touches e runFile = false) ∧
      lookupFs (Compile env fs sourcefile runFile runCmdDir pid).2.1 runFile =
        lookupFs fs runFile) := by
  have htmp : runFile ≠ compileTmpSrc runFile pid := by
    apply ne_of_length_lt
    simp [compileTmpSrc, List.length_append]
  have hout : runFile ≠ runFile ++ ".".data ++ pid := ne_dot_ext2 runFile pid
  have hout' : runFile ≠ runFile ++ '.' :: pid := by simp
  refine ⟨?_, ?_, ?_⟩
  · intro e he ht
    rcases Compile_trace_shape env fs sourcefile runFile runCmdDir pid e he with
      h | h | h | h | h | h | h | h | h <;> subst h
    · simp [touches, Ne.symm hmod] at ht
    · simp [touches, Ne.symm hmod] at ht
    · simp [touches, Ne.symm hsum] at ht
    · simp [touches, Ne.symm hsum] at ht
    · simp [touches, Ne.symm htmp] at ht
    · simp [touches, Ne.symm htmp] at ht
    · simp [touches] at ht
    · simp [touches, Ne.symm hout, Ne.symm hout'] at ht
    · rfl
  · intro dir ea args hmem
    rcases Compile_trace_shape env fs sourcefile runFile runCmdDir pid _ hmem with
      h | h | h | h | h | h | h | h | h
    · exact absurd h (by simp)
    · exact absurd h (by simp)
    · exact absurd h (by simp)
    · exact absurd h (by simp)
    · exact absurd h (by simp)
    · exact absurd h (by simp)
    · injection h with hd he2 ha
      rw [ha]
      rfl
    · exact absurd h (by simp)
    · exact absurd h (by simp)
  · intro htc
    obtain ⟨hsome, hnorename, hlook⟩ :=
      Compile_fail env fs sourcefile runFile runCmdDir pid htc
    refine ⟨hsome, ?_, hlook runFile hmod hsum htmp⟩
    intro e he
    rcases Compile_trace_shape env fs sourcefile runFile runCmdDir pid e he with
      h | h | h | h | h | h | h | h | h
    · subst h; simp [touches, Ne.symm hmod]
    · subst h; simp [touches, Ne.symm hmod]
    · subst h; simp [touches, Ne.symm hsum]
    · subst h; simp [touches, Ne.symm hsum]
    · subst h; simp [touches, Ne.symm htmp]
    · subst h; simp [touches, Ne.symm htmp]
    · subst h; simp [touches]
    · subst h; simp [touches, Ne.symm hout, Ne.symm hout']
    · exact absurd h (hnorename e he)

/-- C2 witness: on a concrete toolchain failure the builder reports the
error, no effect touches the entry path, and the entry path's content is
untouched. -/
theorem c2_atomic_publish_witness :
    (Compile exCompileEnvBuildFail exShebangFs exSrcPath exRunFile exRunCmdDir exPid).1.isSome
      = true ∧
    lookupFs
      (Compile exCompileEnvBuildFail exShebangFs exSrcPath exRunFile exRunCmdDir exPid).2.1
      exRunFile = lookupFs exShebangFs exRunFile := by
  have h := (c2_atomic_publish exCompileEnvBuildFail exShebangFs exSrcPath exRunFile
    exRunCmdDir exPid (by decide) (by decide)).2.2 rfl
  exact ⟨h.1, h.2.2⟩

/-- C9 counterexample: a source whose content is exactly the two bytes
`#!` begins with the interpreter-directive marker, yet the builder performs
no rewrite and writes no private copy: the toolchain is handed the original
source path directly (the rewrite requires length strictly greater than
two). -/
theorem c9_counterexample :
    (Compile exCompileEnvOk exShebangOnlyFs exSrcPath exRunFile exRunCmdDir exPid).2.2 =
      [CEffect.removeF (exRunCmdDir ++ "go.mod".data),
       CEffect.removeF (exRunCmdDir ++ "go.sum".data),
       CEffect.runTool [] []
         ["go".data, "build".data, "-o".data, exRunFile ++ ".".data ++ exPid, exSrcPath],
       CEffect.writeF (exRunFile ++ ".".data ++ exPid) "ELF".data,
       CEffect.renameF (exRunFile ++ ".".data ++ exPid) exRunFile] ∧
    lookupFs exShebangOnlyFs exSrcPath = some ('#' :: '!' :: []) := by decide

/-- C9 (amended): for every source file of length strictly greater than two
that begins with `#!`, the builder rewrites those two bytes to `//` in a
private pid-qualified copy, hands that copy (not the original) to the
toolchain, and never touches the user's source file on disk. -/
theorem c9_shebang_rewritten_in_private_copy (env : CompileEnv) (fs : List (Str × Str))
    (sourcefile runFile runCmdDir pid : Str) (c : Char) (rest : Str)
    (hcontent : lookupFs fs sourcefile = some ('#' :: '!' :: c :: rest))
    (hsmod : sourcefile ≠ runCmdDir ++ "go.mod".data)
    (hssum : sourcefile ≠ runCmdDir ++ "go.sum".data)
    (hsrf : sourcefile ≠ runFile)
    (hstmp : sourcefile ≠ runFile ++ ".".data ++ pid ++ ".go".data)
    (hsout : sourcefile ≠ runFile ++ ".".data ++ pid) :
    (∀ e ∈ (Compile env fs sourcefile runFile runCmdDir pid).2.2,
      touches e sourcefile = false) ∧
    lookupFs (Compile env fs sourcefile runFile runCmdDir pid).2.1 sourcefile =
      lookupFs fs sourcefile ∧
    (∀ dir ea args, CEffect.runTool dir ea args ∈
        (Compile env fs sourcefile runFile runCmdDir pid).2.2 →
      args.get? 4 = some (runFile ++ ".".data ++ pid ++ ".go".data)) ∧
    (env.mkdirOk = true → env.writeModOk = true → env.writeSumOk = true →
      env.writeTmpOk = true →
      CEffect.writeF (runFile ++ ".".data ++ pid ++ ".go".data) ('/' :: '/' :: c :: rest) ∈
        (Compile env fs sourcefile runFile runCmdDir pid).2.2) := by
  have hstmp' : sourcefile ≠ compileTmpSrc runFile pid := hstmp
  have hsout' : sourcefile ≠ runFile ++ '.' :: pid := by simpa using hsout
  have hrw : compileRewritten fs sourcefile = true := by
    simp [compileRewritten, compileContent0, hcontent]
  have hcp : compileCopyNeeded fs sourcefile = true := by
    simp [compileCopyNeeded, hrw]
  have hcc : compileContent fs sourcefile = '/' :: '/' :: c :: rest := by
    simp [compileContent, compileContent0, hcontent]
  refine ⟨?_, ?_, ?_, ?_⟩
  · intro e he
    rcases Compile_trace_shape env fs sourcefile runFile runCmdDir pid e he with
      h | h | h | h | h | h | h | h | h <;> subst h
    · simp [touches, Ne.symm hsmod]
    · simp [touches, Ne.symm hsmod]
    · simp [touches, Ne.symm hssum]
    · simp [touches, Ne.symm hssum]
    · simp [touches, Ne.symm hstmp']
    · simp [touches, Ne.symm hstmp']
    · simp [touches]
    · simp [touches, Ne.symm hsout, Ne.symm hsout']
    · simp [touches, Ne.symm hsrf]
  · exact Compile_lookup env fs sourcefile runFile runCmdDir pid sourcefile hsmod hssum
      hstmp' hsout hsrf
  · intro dir ea args hmem
    rcases Compile_trace_shape env fs sourcefile runFile runCmdDir pid _ hmem with
      h | h | h | h | h | h | h | h | h
    · exact absurd h (by simp)
    · exact absurd h (by simp)
    · exact absurd h (by simp)
    · exact absurd h (by simp)
    · exact absurd h (by simp)
    · exact absurd h (by simp)
    · injection h with hd he2 ha
      rw [ha, hcp]
      rfl
    · exact absurd h (by simp)
    · exact absurd h (by simp)
  · intro h1 h2 h3 h4
    have hs1none : (compileS1 env fs sourcefile runCmdDir).1 = none :=
      sectionStep_ok _ _ _ _ _ h2
    have hs2none : (compileS2 env fs sourcefile runCmdDir).1 = none :=
      sectionStep_ok _ _ _ _ _ h3
    unfold Compile
    rw [if_neg (by simp [h1]), if_neg (by simp [hs1none]), if_neg (by simp [hs2none]),
      if_neg (by simp [hcp, h4])]
    obtain ⟨Δb, hΔb, _⟩ := buildStep_trace env runFile (compileTmpSrc runFile pid)
      (if compileCopyNeeded fs sourcefile then compileTmpSrc runFile pid else sourcefile)
      (if compileCopyNeeded fs sourcefile then runCmdDir else [])
      (getSection (compileContent fs sourcefile) "go.env".data)
      (compileCopyNeeded fs sourcefile) pid
      (compileFs5 env fs sourcefile runFile runCmdDir pid)
      (compileTr5 env fs sourcefile runFile runCmdDir pid)
    rw [hΔb]
    apply List.mem_append_left
    simp [compileTr5, compileTmpSrc, hcp, hcc]

/-- C9 witness: the amended statement applied to a concrete shebang
source. -/
theorem c9_shebang_rewritten_in_private_copy_witness :
    lookupFs
      (Compile exCompileEnvOk exShebangFs exSrcPath exRunFile exRunCmdDir exPid).2.1
      exSrcPath = lookupFs exShebangFs exSrcPath ∧
    CEffect.writeF (exRunFile ++ ".".data ++ exPid ++ ".go".data)
      ('/' :: '/' :: '/' :: "usr/bin/gorun\npackage main\n".data) ∈
      (Compile exCompileEnvOk exShebangFs exSrcPath exRunFile exRunCmdDir exPid).2.2 := by
  have h := c9_shebang_rewritten_in_private_copy exCompileEnvOk exShebangFs exSrcPath
    exRunFile exRunCmdDir exPid '/' "usr/bin/gorun\npackage main\n".data (by decide)
    (by decide) (by decide) (by decide) (by decide) (by decide)
  exact ⟨h.2.1, h.2.2.2 rfl rfl rfl rfl⟩

end Gorun
